import Mathlib

/-!
Verification development for the nzhousingstats data collection and
aggregation core (`lib/data-collection.ts`, normalized schema of
`scripts/migrate-to-normalized-schema.ts`).

The upstream payload types follow `lib/types/trademe.ts`; the store is the
five normalized SQLite tables (regions, districts, suburbs, listing_types,
snapshots, suburb_listings).  Dates and timestamps are modelled as natural
numbers (ISO date strings compare lexicographically, hence order-isomorphic
to naturals).  SQL primary keys make every join on an id a lookup, so joins
are modelled with `List.find?`.
-/

namespace NZS

/-- Suburb node of the upstream payload (`Suburb` in `lib/types/trademe.ts`):
`SuburbId`, `Name`, optional `Count`. -/
structure Suburb where
  SuburbId : Nat
  Name : String
  Count : Option Nat
deriving DecidableEq

/-- District node of the upstream payload (`District`): `DistrictId`, `Name`,
`Suburbs`, optional `Count`. -/
structure District where
  DistrictId : Nat
  Name : String
  Suburbs : List Suburb
  Count : Option Nat
deriving DecidableEq

/-- Region node of the upstream payload (`Region`): `LocalityId`, `Name`,
`Districts`.  The upstream JSON also carries a region-level `Count`; the
source type comments it out as unreliable and the code never reads it, so we
keep the field here to be able to state exactly that. -/
structure Region where
  LocalityId : Nat
  Name : String
  Districts : List District
  Count : Option Nat
deriving DecidableEq

/-- Row of the `regions` table (`id INTEGER PRIMARY KEY, name TEXT`). -/
structure RegionRow where
  id : Nat
  name : String
deriving DecidableEq

/-- Row of the `districts` table (`id, name, region_id REFERENCES regions`). -/
structure DistrictRow where
  id : Nat
  name : String
  region_id : Nat
deriving DecidableEq

/-- Row of the `suburbs` table
(`id, name, district_id REFERENCES districts, region_id REFERENCES regions`). -/
structure SuburbRow where
  id : Nat
  name : String
  district_id : Nat
  region_id : Nat
deriving DecidableEq

/-- Row of the `listing_types` table (only the fields the collection and
query code reads: `id`, unique `code`). -/
structure ListingTypeRow where
  id : Nat
  code : String
deriving DecidableEq

/-- Row of the `snapshots` table
(`id, snapshot_date UNIQUE, collected_at, status, processing_time_ms`). -/
structure SnapshotRow where
  id : Nat
  snapshot_date : Nat
  collected_at : Nat
  status : String
  processing_time_ms : Option Nat
deriving DecidableEq

/-- Row of the `suburb_listings` fact table
(`snapshot_id, listing_type_id, suburb_id, listing_count`). -/
structure SuburbListingRow where
  snapshot_id : Nat
  listing_type_id : Nat
  suburb_id : Nat
  listing_count : Nat
deriving DecidableEq

/-- The database: the five normalized tables plus the AUTOINCREMENT counter
for `snapshots.id`. -/
structure Store where
  regions : List RegionRow
  districts : List DistrictRow
  suburbs : List SuburbRow
  listing_types : List ListingTypeRow
  snapshots : List SnapshotRow
  suburb_listings : List SuburbListingRow
  nextSnapshotId : Nat
deriving DecidableEq

/-- Outcome of the upstream fetch-and-parse step: either the decoded JSON
array of region nodes, or the failure message thrown for a non-success
response (`API failed: ...`) or a parse error. -/
inductive FetchOutcome where
  | ok (payload : List Region)
  | fail (msg : String)
deriving DecidableEq

/-- The payload carried by a fetch outcome (empty on failure). -/
def payloadOf : FetchOutcome → List Region
  | .ok p => p
  | .fail _ => []

/-- The guard `suburb.Count && suburb.Count > 0` of the source: an absent
count and a zero count are both falsy. -/
def positiveCount : Option Nat → Bool
  | some c => decide (0 < c)
  | none => false

/-- All suburb nodes of a payload that pass the positive-count guard, in
walk order (regions, then districts, then suburbs). -/
def allPosSuburbs (regions : List Region) : List Suburb :=
  regions.flatMap fun r =>
    r.Districts.flatMap fun d =>
      d.Suburbs.filter fun sub => positiveCount sub.Count

/-- `totalNzListings` as computed by the first walk of
`collectPropertyData` (lines 54-67): the sum of all positive suburb counts. -/
def sumPositiveSuburbs (regions : List Region) : Nat :=
  ((allPosSuburbs regions).map fun sub => sub.Count.getD 0).sum

/-- `INSERT OR IGNORE INTO regions (id, name)`: a no-op when a row with the
same primary key exists. -/
def insertRegionOrIgnore (st : Store) (row : RegionRow) : Store :=
  if st.regions.any (fun r => r.id == row.id) then st
  else { st with regions := st.regions ++ [row] }

/-- `INSERT OR IGNORE INTO districts (id, name, region_id)`. -/
def insertDistrictOrIgnore (st : Store) (row : DistrictRow) : Store :=
  if st.districts.any (fun d => d.id == row.id) then st
  else { st with districts := st.districts ++ [row] }

/-- `INSERT OR IGNORE INTO suburbs (id, name, district_id, region_id)`. -/
def insertSuburbOrIgnore (st : Store) (row : SuburbRow) : Store :=
  if st.suburbs.any (fun s => s.id == row.id) then st
  else { st with suburbs := st.suburbs ++ [row] }

/-- `INSERT INTO snapshots ... ON CONFLICT(snapshot_date) DO UPDATE SET
collected_at = ..., status = 'in_progress'`, combined with the following
`SELECT id FROM snapshots WHERE snapshot_date = ...`.  Returns the updated
store together with the id of the row for the date. -/
def upsertSnapshot (st : Store) (snapshotDate collectedAt : Nat) : Store × Nat :=
  match st.snapshots.find? (fun s => s.snapshot_date == snapshotDate) with
  | some row =>
    ({ st with snapshots := st.snapshots.map fun s =>
        if s.snapshot_date == snapshotDate then
          { s with collected_at := collectedAt, status := "in_progress" }
        else s }, row.id)
  | none =>
    ({ st with
        snapshots := st.snapshots ++
          [{ id := st.nextSnapshotId, snapshot_date := snapshotDate,
             collected_at := collectedAt, status := "in_progress",
             processing_time_ms := none }],
        nextSnapshotId := st.nextSnapshotId + 1 }, st.nextSnapshotId)

/-- The fact row pushed onto `suburbListings` for a suburb that passed the
positive-count guard. -/
def mkFactRow (sid ltId : Nat) (sub : Suburb) : SuburbListingRow :=
  { snapshot_id := sid, listing_type_id := ltId, suburb_id := sub.SuburbId,
    listing_count := sub.Count.getD 0 }

/-- Inner loop of step 3 of `collectPropertyData`: upsert each suburb of a
district and collect the fact candidates for suburbs with positive counts. -/
def processSuburbs (sid ltId districtId regionId : Nat) :
    Store → List Suburb → Store × List SuburbListingRow
  | st, [] => (st, [])
  | st, sub :: rest =>
    let st1 := insertSuburbOrIgnore st
      { id := sub.SuburbId, name := sub.Name, district_id := districtId,
        region_id := regionId }
    let here := if positiveCount sub.Count then [mkFactRow sid ltId sub] else []
    let res := processSuburbs sid ltId districtId regionId st1 rest
    (res.1, here ++ res.2)

/-- Middle loop of step 3: upsert each district of a region, then its
suburbs. -/
def processDistricts (sid ltId regionId : Nat) :
    Store → List District → Store × List SuburbListingRow
  | st, [] => (st, [])
  | st, d :: rest =>
    let st1 := insertDistrictOrIgnore st
      { id := d.DistrictId, name := d.Name, region_id := regionId }
    let res1 := processSuburbs sid ltId d.DistrictId regionId st1 d.Suburbs
    let res2 := processDistricts sid ltId regionId res1.1 rest
    (res2.1, res1.2 ++ res2.2)

/-- Outer loop of step 3: upsert each region, then its districts. -/
def processRegions (sid ltId : Nat) :
    Store → List Region → Store × List SuburbListingRow
  | st, [] => (st, [])
  | st, r :: rest =>
    let st1 := insertRegionOrIgnore st { id := r.LocalityId, name := r.Name }
    let res1 := processDistricts sid ltId r.LocalityId st1 r.Districts
    let res2 := processRegions sid ltId res1.1 rest
    (res2.1, res1.2 ++ res2.2)

/-- Step 4, first half: `DELETE FROM suburb_listings WHERE snapshot_id = ...
AND listing_type_id = ...`. -/
def deleteFacts (st : Store) (sid ltId : Nat) : Store :=
  { st with suburb_listings := st.suburb_listings.filter fun row =>
      !(row.snapshot_id == sid && row.listing_type_id == ltId) }

/-- Step 4, second half: the batch `INSERT INTO suburb_listings`. -/
def insertFacts (st : Store) (rows : List SuburbListingRow) : Store :=
  { st with suburb_listings := st.suburb_listings ++ rows }

/-- Step 5: `UPDATE snapshots SET status = 'completed',
processing_time_ms = ... WHERE id = ...`. -/
def markCompleted (st : Store) (sid duration : Nat) : Store :=
  { st with snapshots := st.snapshots.map fun s =>
      if s.id == sid then
        { s with status := "completed", processing_time_ms := some duration }
      else s }

/-- The result record returned by `collectPropertyData`. -/
structure CollectResult where
  success : Bool
  totalRecords : Nat
  totalNzListings : Nat
  error : Option String
deriving DecidableEq

/-- `collectPropertyData` of `lib/data-collection.ts`, one complete
collection cycle.  The clock reads (today's date, the collection timestamp,
and the measured duration) are parameters; the fetch-and-parse of the
upstream document is the `fetch` parameter.  The `catch` block of the source
turns the two possible throws (non-success response, listing type not
seeded) into structured failure results; the database writes already
executed before a throw are kept, exactly as in the source. -/
def collectPropertyData (st : Store) (listingType : String)
    (snapshotDate collectedAt duration : Nat) (fetch : FetchOutcome) :
    Store × CollectResult :=
  match fetch with
  | .fail msg =>
    (st, { success := false, totalRecords := 0, totalNzListings := 0,
           error := some msg })
  | .ok allRegions =>
    let regions := allRegions.filter fun r => !(r.LocalityId == 100)
    let totalNzListings := sumPositiveSuburbs regions
    let up := upsertSnapshot st snapshotDate collectedAt
    let st1 := up.1
    let snapshotId := up.2
    match st1.listing_types.find? (fun lt => lt.code == listingType) with
    | none =>
      (st1, { success := false, totalRecords := 0, totalNzListings := 0,
              error := some ("Listing type " ++ listingType ++
                " not found in database") })
    | some ltRow =>
      let res := processRegions snapshotId ltRow.id st1 regions
      let st2 := res.1
      let suburbListings := res.2
      let st3 :=
        if suburbListings.length > 0 then
          insertFacts (deleteFacts st2 snapshotId ltRow.id) suburbListings
        else st2
      let st4 := markCompleted st3 snapshotId duration
      (st4, { success := true, totalRecords := suburbListings.length,
              totalNzListings := totalNzListings, error := none })

/-- The inputs of one scheduled collection cycle. -/
structure RunInput where
  listingType : String
  snapshotDate : Nat
  collectedAt : Nat
  duration : Nat
  fetch : FetchOutcome
deriving DecidableEq

/-- The store after one collection cycle. -/
def runOnce (st : Store) (run : RunInput) : Store :=
  (collectPropertyData st run.listingType run.snapshotDate run.collectedAt
    run.duration run.fetch).1

/-- The store after a sequence of collection cycles. -/
def runsFrom (st : Store) : List RunInput → Store
  | [] => st
  | run :: rest => runsFrom (runOnce st run) rest

/-- A fresh database right after the migration seeded the `listing_types`
table: all other tables empty. -/
def initStore (seed : List ListingTypeRow) : Store :=
  { regions := [], districts := [], suburbs := [], listing_types := seed,
    snapshots := [], suburb_listings := [], nextSnapshotId := 1 }

/-! ## Aggregation query engine (`lib/data-collection.ts`, read side)

Every query joins `suburb_listings` through the hierarchy; a join on a
primary key is a `List.find?` lookup. -/

/-- The join `listing_types lt ON sl.listing_type_id = lt.id` together with
the filter `lt.code = listingType`. -/
def factHasCode (st : Store) (code : String) (row : SuburbListingRow) : Bool :=
  st.listing_types.any fun lt => lt.id == row.listing_type_id && lt.code == code

/-- Does a snapshot id have at least one fact row of the given category
(the inner `JOIN suburb_listings ... JOIN listing_types ... WHERE code`)? -/
def snapshotHasFacts (st : Store) (code : String) (sid : Nat) : Bool :=
  st.suburb_listings.any fun row => row.snapshot_id == sid && factHasCode st code row

/-- The subquery `SELECT MAX(s2.id) FROM snapshots s2 JOIN suburb_listings
JOIN listing_types WHERE code = ...` used by every latest-snapshot query. -/
def latestSnapshotId (st : Store) (code : String) : Option Nat :=
  ((st.snapshots.filter fun s => snapshotHasFacts st code s.id).map fun s => s.id).max?

/-- The fact rows of one snapshot restricted to one category. -/
def factsOfCodeFor (st : Store) (code : String) (sid : Nat) : List SuburbListingRow :=
  st.suburb_listings.filter fun row =>
    row.snapshot_id == sid && factHasCode st code row

/-- The fact rows of the most recent snapshot containing the category
(empty when no such snapshot exists: the `snap.id = NULL` comparison of the
SQL never matches). -/
def latestFacts (st : Store) (code : String) : List SuburbListingRow :=
  match latestSnapshotId st code with
  | none => []
  | some sid => factsOfCodeFor st code sid

/-- Primary-key lookup in the `suburbs` table. -/
def findSuburb (st : Store) (i : Nat) : Option SuburbRow :=
  st.suburbs.find? fun s => s.id == i

/-- Primary-key lookup in the `districts` table. -/
def findDistrict (st : Store) (i : Nat) : Option DistrictRow :=
  st.districts.find? fun d => d.id == i

/-- Primary-key lookup in the `regions` table. -/
def findRegion (st : Store) (i : Nat) : Option RegionRow :=
  st.regions.find? fun r => r.id == i

/-- `suburb_listings JOIN suburbs JOIN regions` for one snapshot and
category (rows whose suburb or region is missing are dropped by the inner
join). -/
def snapRegionJoin (st : Store) (code : String) (sid : Nat) :
    List (SuburbListingRow × SuburbRow × RegionRow) :=
  (factsOfCodeFor st code sid).filterMap fun row =>
    (findSuburb st row.suburb_id).bind fun s =>
      (findRegion st s.region_id).map fun r => (row, s, r)

/-- `suburb_listings JOIN suburbs JOIN districts JOIN regions` for one
snapshot and category. -/
def snapFullJoin (st : Store) (code : String) (sid : Nat) :
    List (SuburbListingRow × SuburbRow × DistrictRow × RegionRow) :=
  (factsOfCodeFor st code sid).filterMap fun row =>
    (findSuburb st row.suburb_id).bind fun s =>
      (findDistrict st s.district_id).bind fun d =>
        (findRegion st s.region_id).map fun r => (row, s, d, r)

/-- The region join restricted to the latest snapshot of the category. -/
def regionJoin (st : Store) (code : String) :
    List (SuburbListingRow × SuburbRow × RegionRow) :=
  match latestSnapshotId st code with
  | none => []
  | some sid => snapRegionJoin st code sid

/-- The full join restricted to the latest snapshot of the category. -/
def districtJoin (st : Store) (code : String) :
    List (SuburbListingRow × SuburbRow × DistrictRow × RegionRow) :=
  match latestSnapshotId st code with
  | none => []
  | some sid => snapFullJoin st code sid

/-- Output row of `getRegionTotals`. -/
structure RegionTotalRow where
  region_id : Nat
  region_name : String
  total_listings : Nat
  suburb_count : Nat
deriving DecidableEq

/-- `getRegionTotals` before the `LIMIT`: fact rows of the latest snapshot
of the category, grouped by region (`GROUP BY r.id, r.name`), with
`SUM(sl.listing_count)` and `COUNT(sl.id)` per group, ordered by total
descending. -/
def getRegionTotalsAll (st : Store) (code : String) : List RegionTotalRow :=
  let rows := regionJoin st code
  let grouped := ((rows.map fun t => t.2.2.id).dedup).map fun rid =>
    let grp := rows.filter fun t => t.2.2.id == rid
    { region_id := rid,
      region_name := ((findRegion st rid).map fun r => r.name).getD "",
      total_listings := (grp.map fun t => t.1.listing_count).sum,
      suburb_count := grp.length : RegionTotalRow }
  grouped.insertionSort fun a b => b.total_listings ≤ a.total_listings

/-- `getRegionTotals listingType limit` of the source. -/
def getRegionTotals (st : Store) (code : String) (limit : Nat) : List RegionTotalRow :=
  (getRegionTotalsAll st code).take limit

/-- Output row of `getDistrictTotals`. -/
structure DistrictTotalRow where
  district_id : Nat
  district_name : String
  region_name : String
  total_listings : Nat
  suburb_count : Nat
deriving DecidableEq

/-- `getDistrictTotals` before the `LIMIT`: fact rows of the latest snapshot
of the category whose suburb lies in the given region, grouped by district
(`GROUP BY d.id, d.name, r.name`), ordered by total descending. -/
def getDistrictTotalsAll (st : Store) (code : String) (regionId : Nat) :
    List DistrictTotalRow :=
  let rows := (districtJoin st code).filter fun t => t.2.2.2.id == regionId
  let grouped := ((rows.map fun t => t.2.2.1.id).dedup).map fun did =>
    let grp := rows.filter fun t => t.2.2.1.id == did
    { district_id := did,
      district_name := ((findDistrict st did).map fun d => d.name).getD "",
      region_name := ((findRegion st regionId).map fun r => r.name).getD "",
      total_listings := (grp.map fun t => t.1.listing_count).sum,
      suburb_count := grp.length : DistrictTotalRow }
  grouped.insertionSort fun a b => b.total_listings ≤ a.total_listings

/-- `getDistrictTotals listingType regionId limit` of the source. -/
def getDistrictTotals (st : Store) (code : String) (regionId limit : Nat) :
    List DistrictTotalRow :=
  (getDistrictTotalsAll st code regionId).take limit

/-- The record returned by `getTotalsByLocationType`. -/
structure TotalsSummary where
  total : Nat
  regions : Nat
  districts : Nat
  suburbs : Nat
  lastUpdated : Nat
deriving DecidableEq

/-- `ORDER BY s.snapshot_date DESC, s.collected_at DESC LIMIT 1` over the
snapshots that have facts of the category; falls back to the current
timestamp (`now`) when there is none, as the source does with
`new Date().toISOString()`. -/
def lastUpdatedFor (st : Store) (code : String) (now : Nat) : Nat :=
  let cands := st.snapshots.filter fun s => snapshotHasFacts st code s.id
  let sorted := cands.insertionSort fun a b =>
    b.snapshot_date < a.snapshot_date ∨
      (b.snapshot_date = a.snapshot_date ∧ b.collected_at ≤ a.collected_at)
  match sorted.head? with
  | some s => s.collected_at
  | none => now

/-- `getTotalsByLocationType`: the national total and the number of distinct
suburbs are computed over the raw fact rows of the latest snapshot (no
hierarchy join); the distinct region count joins `suburbs` and `regions`;
the distinct district count joins `suburbs` and `districts`. -/
def getTotalsByLocationType (st : Store) (code : String) (now : Nat) : TotalsSummary :=
  { total := ((latestFacts st code).map fun row => row.listing_count).sum,
    regions := ((regionJoin st code).map fun t => t.2.2.id).dedup.length,
    districts := (((latestFacts st code).filterMap fun row =>
        (findSuburb st row.suburb_id).bind fun s =>
          findDistrict st s.district_id).map fun d => d.id).dedup.length,
    suburbs := (latestFacts st code).length,
    lastUpdated := lastUpdatedFor st code now }

/-- Output row of `getHistoricalSnapshots`: the nullable
`region_id`/`district_id`/`suburb_id` triple identifies the granularity. -/
structure HistRow where
  id : Nat
  snapshot_date : Nat
  collected_at : Nat
  listing_type : String
  region_id : Option Nat
  district_id : Option Nat
  suburb_id : Option Nat
  total_listings : Nat
deriving DecidableEq

/-- National branch of the `historical_data` CTE: one row per snapshot that
has fact rows of the category, all three location ids NULL, total =
`SUM(sl.listing_count)` over the snapshot. -/
def nationalRows (st : Store) (code : String) : List HistRow :=
  (st.snapshots.filter fun s => snapshotHasFacts st code s.id).map fun s =>
    { id := s.id, snapshot_date := s.snapshot_date, collected_at := s.collected_at,
      listing_type := code, region_id := none, district_id := none,
      suburb_id := none,
      total_listings := ((factsOfCodeFor st code s.id).map fun row =>
        row.listing_count).sum }

/-- Regional branch of the CTE: per snapshot, fact rows joined through
`suburbs` to `regions`, grouped by region. -/
def regionalRows (st : Store) (code : String) : List HistRow :=
  st.snapshots.flatMap fun s =>
    let rows := snapRegionJoin st code s.id
    ((rows.map fun t => t.2.2.id).dedup).map fun rid =>
      { id := s.id, snapshot_date := s.snapshot_date, collected_at := s.collected_at,
        listing_type := code, region_id := some rid, district_id := none,
        suburb_id := none,
        total_listings := ((rows.filter fun t => t.2.2.id == rid).map fun t =>
          t.1.listing_count).sum }

/-- District branch of the CTE: per snapshot, the full join grouped by
`(r.id, d.id)`. -/
def districtHistRows (st : Store) (code : String) : List HistRow :=
  st.snapshots.flatMap fun s =>
    let rows := snapFullJoin st code s.id
    ((rows.map fun t => (t.2.2.2.id, t.2.2.1.id)).dedup).map fun key =>
      { id := s.id, snapshot_date := s.snapshot_date, collected_at := s.collected_at,
        listing_type := code, region_id := some key.1, district_id := some key.2,
        suburb_id := none,
        total_listings := ((rows.filter fun t =>
          (t.2.2.2.id, t.2.2.1.id) == key).map fun t => t.1.listing_count).sum }

/-- Suburb branch of the CTE: one ungrouped row per fully joined fact row. -/
def suburbHistRows (st : Store) (code : String) : List HistRow :=
  st.snapshots.flatMap fun s =>
    (snapFullJoin st code s.id).map fun t =>
      { id := s.id, snapshot_date := s.snapshot_date, collected_at := s.collected_at,
        listing_type := code, region_id := some t.2.2.2.id,
        district_id := some t.2.2.1.id, suburb_id := some t.2.1.id,
        total_listings := t.1.listing_count }

/-- `getHistoricalSnapshots listingType limit?`: the union of the four
granularities, `ORDER BY snapshot_date ASC`, with the optional `LIMIT`. -/
def getHistoricalSnapshots (st : Store) (code : String) (limit : Option Nat) :
    List HistRow :=
  let allRows := nationalRows st code ++ regionalRows st code ++
    districtHistRows st code ++ suburbHistRows st code
  let sorted := allRows.insertionSort fun a b => a.snapshot_date ≤ b.snapshot_date
  match limit with
  | some n => sorted.take n
  | none => sorted


/-- Does a historical row represent the national granularity (all three
location ids NULL)? -/
def isNationalRow (r : HistRow) : Bool :=
  r.region_id.isNone && r.district_id.isNone && r.suburb_id.isNone

/-- The fact rows attached (through the snapshot and listing-type joins) to
the snapshot of a calendar date and a category code. -/
def factRowsForDate (st : Store) (d : Nat) (code : String) : List SuburbListingRow :=
  st.suburb_listings.filter fun row =>
    (st.snapshots.any fun s => s.id == row.snapshot_id && s.snapshot_date == d)
      && factHasCode st code row

/-- The (id, snapshot_date) projection of the snapshots table: the part a
reader needs to attach fact rows to dates. -/
def snapProj (st : Store) : List (Nat × Nat) :=
  st.snapshots.map fun s => (s.id, s.snapshot_date)

/-- The id of the snapshot row for a date, when one exists. -/
def sidByDate (st : Store) (d : Nat) : Option Nat :=
  (st.snapshots.find? fun s => s.snapshot_date == d).map fun s => s.id

/-- The id the snapshot upsert settles on for a date: the existing row's id,
or the next AUTOINCREMENT value. -/
def upsertSid (st : Store) (d : Nat) : Nat :=
  match st.snapshots.find? (fun s => s.snapshot_date == d) with
  | some row => row.id
  | none => st.nextSnapshotId

/-! ## Demonstration scenario (spec section 8, properties 7 and 8) -/

/-- Seed of the demonstration stores: one listing type with id 1,
abbreviated code "B". -/
def demoSeed : List ListingTypeRow := [{ id := 1, code := "B" }]

def demoSuburb1 : Suburb := { SuburbId := 1736, Name := "Kerikeri", Count := some 354 }

def demoSuburb2 : Suburb := { SuburbId := 1737, Name := "Paihia", Count := some 46 }

/-- Far North with a reported count of 999, inconsistent with the suburb sum
of 400. -/
def demoDistrict : District :=
  { DistrictId := 1, Name := "Far North", Suburbs := [demoSuburb1, demoSuburb2],
    Count := some 999 }

def demoRegion : Region :=
  { LocalityId := 9, Name := "Northland", Districts := [demoDistrict], Count := none }

def demoPayload : List Region := [demoRegion]

def demoRun : RunInput :=
  { listingType := "B", snapshotDate := 1, collectedAt := 10, duration := 5,
    fetch := .ok demoPayload }


/-- Payload of the first stale-row run: one suburb with count 5. -/
def stalePayload1 : List Region :=
  [⟨9, "Northland", [⟨1, "Far North", [⟨1736, "Kerikeri", some 5⟩], none⟩], none⟩]

/-- Payload of the second stale-row run: the same suburb now reports 0. -/
def stalePayload2 : List Region :=
  [⟨9, "Northland", [⟨1, "Far North", [⟨1736, "Kerikeri", some 0⟩], none⟩], none⟩]

/-- First run of the stale-row pair, on date 1. -/
def staleRun1 : RunInput :=
  { listingType := "B", snapshotDate := 1, collectedAt := 10, duration := 5,
    fetch := .ok stalePayload1 }

/-- Second run of the stale-row pair: same category and date, but the run
computes an empty fact list, so the delete step is skipped. -/
def staleRun2 : RunInput :=
  { listingType := "B", snapshotDate := 1, collectedAt := 20, duration := 5,
    fetch := .ok stalePayload2 }

/-- First reparenting run: district 10 first appears under region 1, with
no suburbs. -/
def reparentRun1 : RunInput :=
  { listingType := "B", snapshotDate := 1, collectedAt := 10, duration := 5,
    fetch := .ok [⟨1, "R1", [⟨10, "D", [], none⟩], none⟩] }

/-- Second reparenting run: the same district 10 now appears under region 2
and carries a suburb seen for the first time.  INSERT OR IGNORE keeps the
district's original region 1, but the new suburb row is written with
region 2. -/
def reparentRun2 : RunInput :=
  { listingType := "B", snapshotDate := 2, collectedAt := 20, duration := 5,
    fetch := .ok [⟨2, "R2", [⟨10, "D", [⟨100, "S", none⟩], none⟩], none⟩] }

/-! ## Generic list lemmas used by the aggregation proofs -/

theorem sum_map_ite_eq {keys : List Nat} (g : Nat → Nat) (a c : Nat)
    (hnd : keys.Nodup) (ha : a ∈ keys) :
    (keys.map fun k => if a == k then c + g k else g k).sum = c + (keys.map g).sum := by
  induction keys with
  | nil => cases ha
  | cons k ks ih =>
    rcases List.mem_cons.1 ha with h | h
    · subst h
      have hnotin : a ∉ ks := (List.nodup_cons.1 hnd).1
      simp only [List.map_cons, List.sum_cons, beq_self_eq_true, if_true]
      have hrest : (ks.map fun k => if a == k then c + g k else g k) = ks.map g := by
        apply List.map_congr_left
        intro x hx
        have hne : a ≠ x := fun h => hnotin (h ▸ hx)
        simp [beq_iff_eq, hne]
      rw [hrest]
      omega
    · have hk : ¬(a == k) = true := by
        rw [beq_iff_eq]
        rintro rfl
        exact (List.nodup_cons.1 hnd).1 h
      simp only [List.map_cons, List.sum_cons, if_neg hk]
      rw [ih (List.nodup_cons.1 hnd).2 h]
      omega

theorem grouped_sum_eq {α : Type} (v key : α → Nat) :
    ∀ (l : List α) (keys : List Nat), keys.Nodup → (∀ x ∈ l, key x ∈ keys) →
      (keys.map fun k => ((l.filter fun x => key x == k).map v).sum).sum
        = (l.map v).sum := by
  intro l
  induction l with
  | nil => intro keys _ _; simp
  | cons x t ih =>
    intro keys hnd hcov
    have hx : key x ∈ keys := hcov x (List.mem_cons_self x t)
    have hrw : (keys.map fun k => ((List.filter (fun y => key y == k) (x :: t)).map v).sum)
        = keys.map fun k =>
            if key x == k then v x + ((t.filter fun y => key y == k).map v).sum
            else ((t.filter fun y => key y == k).map v).sum := by
      apply List.map_congr_left
      intro k _
      by_cases h : key x = k
      · simp [List.filter_cons, h]
      · simp [List.filter_cons, h, beq_iff_eq]
    rw [hrw, sum_map_ite_eq _ _ _ hnd hx,
      ih keys hnd (fun y hy => hcov y (List.mem_cons_of_mem _ hy))]
    simp

theorem grouped_sum_dedup {α : Type} (l : List α) (key v : α → Nat) :
    (((l.map key).dedup).map fun k => ((l.filter fun x => key x == k).map v).sum).sum
      = (l.map v).sum :=
  grouped_sum_eq v key l _ (List.nodup_dedup _)
    (fun _ hx => List.mem_dedup.2 (List.mem_map_of_mem key hx))

theorem filterMap_total_sum {α β : Type} (v : α → Nat) (w : β → Nat) (F : α → Option β) :
    ∀ l : List α, (∀ x ∈ l, ∃ y, F x = some y ∧ w y = v x) →
      ((l.filterMap F).map w).sum = (l.map v).sum := by
  intro l
  induction l with
  | nil => intro _; simp
  | cons x t ih =>
    intro h
    obtain ⟨y, hy, hw⟩ := h x (List.mem_cons_self x t)
    rw [List.filterMap_cons, hy]
    simp only [List.map_cons, List.sum_cons]
    rw [hw, ih (fun z hz => h z (List.mem_cons_of_mem _ hz))]

theorem countP_key_eq_one {α : Type} (key : α → Nat) :
    ∀ l : List α, (l.map key).Nodup → ∀ a ∈ l,
      l.countP (fun x => key x == key a) = 1 := by
  intro l
  induction l with
  | nil => intro _ a ha; cases ha
  | cons x t ih =>
    intro hnd a ha
    rw [List.map_cons, List.nodup_cons] at hnd
    rcases List.mem_cons.1 ha with rfl | h
    · rw [List.countP_cons]
      have hz : t.countP (fun y => key y == key a) = 0 := by
        rw [List.countP_eq_zero]
        intro y hy hcon
        rw [beq_iff_eq] at hcon
        exact hnd.1 (hcon ▸ List.mem_map_of_mem key hy)
      simp [hz]
    · rw [List.countP_cons, ih hnd.2 a h]
      have hne : ¬(key x == key a) = true := by
        rw [beq_iff_eq]
        intro hcon
        exact hnd.1 (hcon ▸ List.mem_map_of_mem key h)
      simp [hne]

theorem countP_key_eq_zero {α : Type} (key : α → Nat) (l : List α) (i : Nat)
    (h : ∀ a ∈ l, key a ≠ i) : l.countP (fun x => key x == i) = 0 := by
  rw [List.countP_eq_zero]
  intro a ha
  simpa [beq_iff_eq] using h a ha

/-! ## Effect lemmas for the collection cycle -/

/-- The hierarchy-upsert phase only appends reference rows and leaves every
other table untouched. -/
structure HierExtends (st st' : Store) : Prop where
  regions_ext : ∃ l, st'.regions = st.regions ++ l
  districts_ext : ∃ l, st'.districts = st.districts ++ l
  suburbs_ext : ∃ l, st'.suburbs = st.suburbs ++ l
  types_eq : st'.listing_types = st.listing_types
  snaps_eq : st'.snapshots = st.snapshots
  facts_eq : st'.suburb_listings = st.suburb_listings
  next_eq : st'.nextSnapshotId = st.nextSnapshotId

theorem HierExtends.self (st : Store) : HierExtends st st :=
  ⟨⟨[], by simp⟩, ⟨[], by simp⟩, ⟨[], by simp⟩, rfl, rfl, rfl, rfl⟩

theorem HierExtends.trans {s1 s2 s3 : Store}
    (h1 : HierExtends s1 s2) (h2 : HierExtends s2 s3) : HierExtends s1 s3 := by
  obtain ⟨⟨a1, e1⟩, ⟨b1, f1⟩, ⟨c1, g1⟩, t1, n1, l1, x1⟩ := h1
  obtain ⟨⟨a2, e2⟩, ⟨b2, f2⟩, ⟨c2, g2⟩, t2, n2, l2, x2⟩ := h2
  refine ⟨⟨a1 ++ a2, ?_⟩, ⟨b1 ++ b2, ?_⟩, ⟨c1 ++ c2, ?_⟩, t2.trans t1, n2.trans n1,
    l2.trans l1, x2.trans x1⟩
  · rw [e2, e1, List.append_assoc]
  · rw [f2, f1, List.append_assoc]
  · rw [g2, g1, List.append_assoc]

theorem insertRegionOrIgnore_extends (st : Store) (row : RegionRow) :
    HierExtends st (insertRegionOrIgnore st row) := by
  unfold insertRegionOrIgnore
  split
  · exact HierExtends.self st
  · exact ⟨⟨[row], rfl⟩, ⟨[], by simp⟩, ⟨[], by simp⟩, rfl, rfl, rfl, rfl⟩

theorem insertDistrictOrIgnore_extends (st : Store) (row : DistrictRow) :
    HierExtends st (insertDistrictOrIgnore st row) := by
  unfold insertDistrictOrIgnore
  split
  · exact HierExtends.self st
  · exact ⟨⟨[], by simp⟩, ⟨[row], rfl⟩, ⟨[], by simp⟩, rfl, rfl, rfl, rfl⟩

theorem insertSuburbOrIgnore_extends (st : Store) (row : SuburbRow) :
    HierExtends st (insertSuburbOrIgnore st row) := by
  unfold insertSuburbOrIgnore
  split
  · exact HierExtends.self st
  · exact ⟨⟨[], by simp⟩, ⟨[], by simp⟩, ⟨[row], rfl⟩, rfl, rfl, rfl, rfl⟩

theorem processSuburbs_extends (sid ltId did rid : Nat) :
    ∀ (subs : List Suburb) (st : Store),
      HierExtends st (processSuburbs sid ltId did rid st subs).1 := by
  intro subs
  induction subs with
  | nil => intro st; exact HierExtends.self st
  | cons sub rest ih =>
    intro st
    simp only [processSuburbs]
    exact (insertSuburbOrIgnore_extends st _).trans (ih _)

theorem processDistricts_extends (sid ltId rid : Nat) :
    ∀ (ds : List District) (st : Store),
      HierExtends st (processDistricts sid ltId rid st ds).1 := by
  intro ds
  induction ds with
  | nil => intro st; exact HierExtends.self st
  | cons d rest ih =>
    intro st
    simp only [processDistricts]
    exact ((insertDistrictOrIgnore_extends st _).trans
      (processSuburbs_extends _ _ _ _ _ _)).trans (ih _)

theorem processRegions_extends (sid ltId : Nat) :
    ∀ (rs : List Region) (st : Store),
      HierExtends st (processRegions sid ltId st rs).1 := by
  intro rs
  induction rs with
  | nil => intro st; exact HierExtends.self st
  | cons r rest ih =>
    intro st
    simp only [processRegions]
    exact ((insertRegionOrIgnore_extends st _).trans
      (processDistricts_extends _ _ _ _ _)).trans (ih _)

/-- The fact candidates emitted by the suburb loop are exactly the rows of
the positive-count suburbs, in order. -/
theorem processSuburbs_snd (sid ltId did rid : Nat) :
    ∀ (subs : List Suburb) (st : Store),
      (processSuburbs sid ltId did rid st subs).2
        = (subs.filter fun sub => positiveCount sub.Count).map (mkFactRow sid ltId) := by
  intro subs
  induction subs with
  | nil => intro st; simp [processSuburbs]
  | cons sub rest ih =>
    intro st
    simp only [processSuburbs]
    rw [ih]
    cases h : positiveCount sub.Count <;> simp [List.filter_cons, h]

theorem processDistricts_snd (sid ltId rid : Nat) :
    ∀ (ds : List District) (st : Store),
      (processDistricts sid ltId rid st ds).2
        = ((ds.flatMap fun d => d.Suburbs.filter fun sub => positiveCount sub.Count).map
            (mkFactRow sid ltId)) := by
  intro ds
  induction ds with
  | nil => intro st; simp [processDistricts]
  | cons d rest ih =>
    intro st
    simp only [processDistricts]
    rw [processSuburbs_snd, ih]
    simp

/-- The fact rows emitted by one run are exactly the positive-count suburb
nodes of the (already sentinel-filtered) payload, mapped to rows. -/
theorem processRegions_snd (sid ltId : Nat) :
    ∀ (rs : List Region) (st : Store),
      (processRegions sid ltId st rs).2 = (allPosSuburbs rs).map (mkFactRow sid ltId) := by
  intro rs
  induction rs with
  | nil => intro st; simp [processRegions, allPosSuburbs]
  | cons r rest ih =>
    intro st
    simp only [processRegions]
    rw [processDistricts_snd, ih]
    simp [allPosSuburbs]

/-- A region row with the given upstream id exists. -/
def hasRegionId (st : Store) (i : Nat) : Prop := ∃ row ∈ st.regions, row.id = i

/-- A district row with the given upstream id exists. -/
def hasDistrictId (st : Store) (i : Nat) : Prop := ∃ row ∈ st.districts, row.id = i

/-- A suburb row with the given upstream id exists. -/
def hasSuburbId (st : Store) (i : Nat) : Prop := ∃ row ∈ st.suburbs, row.id = i

theorem hasRegionId_mono {st st' : Store} (h : HierExtends st st') {i : Nat}
    (hi : hasRegionId st i) : hasRegionId st' i := by
  obtain ⟨l, hl⟩ := h.regions_ext
  obtain ⟨row, hrow, hid⟩ := hi
  exact ⟨row, by rw [hl]; exact List.mem_append_left _ hrow, hid⟩

theorem hasDistrictId_mono {st st' : Store} (h : HierExtends st st') {i : Nat}
    (hi : hasDistrictId st i) : hasDistrictId st' i := by
  obtain ⟨l, hl⟩ := h.districts_ext
  obtain ⟨row, hrow, hid⟩ := hi
  exact ⟨row, by rw [hl]; exact List.mem_append_left _ hrow, hid⟩

theorem hasSuburbId_mono {st st' : Store} (h : HierExtends st st') {i : Nat}
    (hi : hasSuburbId st i) : hasSuburbId st' i := by
  obtain ⟨l, hl⟩ := h.suburbs_ext
  obtain ⟨row, hrow, hid⟩ := hi
  exact ⟨row, by rw [hl]; exact List.mem_append_left _ hrow, hid⟩

theorem insertRegionOrIgnore_has (st : Store) (row : RegionRow) :
    hasRegionId (insertRegionOrIgnore st row) row.id := by
  unfold insertRegionOrIgnore
  split
  · rename_i h
    obtain ⟨r, hr, hid⟩ := List.any_eq_true.1 h
    exact ⟨r, hr, by rwa [beq_iff_eq] at hid⟩
  · exact ⟨row, List.mem_append_right _ (List.mem_singleton.2 rfl), rfl⟩

theorem insertDistrictOrIgnore_has (st : Store) (row : DistrictRow) :
    hasDistrictId (insertDistrictOrIgnore st row) row.id := by
  unfold insertDistrictOrIgnore
  split
  · rename_i h
    obtain ⟨r, hr, hid⟩ := List.any_eq_true.1 h
    exact ⟨r, hr, by rwa [beq_iff_eq] at hid⟩
  · exact ⟨row, List.mem_append_right _ (List.mem_singleton.2 rfl), rfl⟩

theorem insertSuburbOrIgnore_has (st : Store) (row : SuburbRow) :
    hasSuburbId (insertSuburbOrIgnore st row) row.id := by
  unfold insertSuburbOrIgnore
  split
  · rename_i h
    obtain ⟨r, hr, hid⟩ := List.any_eq_true.1 h
    exact ⟨r, hr, by rwa [beq_iff_eq] at hid⟩
  · exact ⟨row, List.mem_append_right _ (List.mem_singleton.2 rfl), rfl⟩

theorem processSuburbs_covers (sid ltId did rid : Nat) :
    ∀ (subs : List Suburb) (st : Store), ∀ sub ∈ subs,
      hasSuburbId (processSuburbs sid ltId did rid st subs).1 sub.SuburbId := by
  intro subs
  induction subs with
  | nil => intro st sub h; cases h
  | cons s0 rest ih =>
    intro st sub h
    simp only [processSuburbs]
    rcases List.mem_cons.1 h with rfl | h
    · exact hasSuburbId_mono (processSuburbs_extends _ _ _ _ _ _)
        (insertSuburbOrIgnore_has st _)
    · exact ih _ sub h

theorem processDistricts_covers (sid ltId rid : Nat) :
    ∀ (ds : List District) (st : Store), ∀ d ∈ ds,
      hasDistrictId (processDistricts sid ltId rid st ds).1 d.DistrictId
      ∧ ∀ sub ∈ d.Suburbs,
          hasSuburbId (processDistricts sid ltId rid st ds).1 sub.SuburbId := by
  intro ds
  induction ds with
  | nil => intro st d h; cases h
  | cons d0 rest ih =>
    intro st d h
    simp only [processDistricts]
    rcases List.mem_cons.1 h with rfl | h
    · constructor
      · exact hasDistrictId_mono
          ((processSuburbs_extends _ _ _ _ _ _).trans (processDistricts_extends _ _ _ _ _))
          (insertDistrictOrIgnore_has st _)
      · intro sub hsub
        exact hasSuburbId_mono (processDistricts_extends _ _ _ _ _)
          (processSuburbs_covers _ _ _ _ _ _ sub hsub)
    · exact ih _ d h

theorem processRegions_covers (sid ltId : Nat) :
    ∀ (rs : List Region) (st : Store), ∀ r ∈ rs,
      hasRegionId (processRegions sid ltId st rs).1 r.LocalityId
      ∧ ∀ d ∈ r.Districts,
          hasDistrictId (processRegions sid ltId st rs).1 d.DistrictId
          ∧ ∀ sub ∈ d.Suburbs,
              hasSuburbId (processRegions sid ltId st rs).1 sub.SuburbId := by
  intro rs
  induction rs with
  | nil => intro st r h; cases h
  | cons r0 rest ih =>
    intro st r h
    simp only [processRegions]
    rcases List.mem_cons.1 h with rfl | h
    · have hcov := processDistricts_covers sid ltId r.LocalityId r.Districts
        (insertRegionOrIgnore st { id := r.LocalityId, name := r.Name })
      constructor
      · exact hasRegionId_mono
          ((processDistricts_extends _ _ _ _ _).trans (processRegions_extends _ _ _ _))
          (insertRegionOrIgnore_has st _)
      · intro d hd
        exact ⟨hasDistrictId_mono (processRegions_extends _ _ _ _) ((hcov d hd).1),
          fun sub hsub => hasSuburbId_mono (processRegions_extends _ _ _ _)
            ((hcov d hd).2 sub hsub)⟩
    · exact ih _ r h

/-! ## Field-equality helpers for the non-hierarchy operations -/

theorem upsertSnapshot_regions (st : Store) (d t : Nat) :
    (upsertSnapshot st d t).1.regions = st.regions := by
  unfold upsertSnapshot; split <;> rfl

theorem upsertSnapshot_districts (st : Store) (d t : Nat) :
    (upsertSnapshot st d t).1.districts = st.districts := by
  unfold upsertSnapshot; split <;> rfl

theorem upsertSnapshot_suburbs (st : Store) (d t : Nat) :
    (upsertSnapshot st d t).1.suburbs = st.suburbs := by
  unfold upsertSnapshot; split <;> rfl

theorem upsertSnapshot_types (st : Store) (d t : Nat) :
    (upsertSnapshot st d t).1.listing_types = st.listing_types := by
  unfold upsertSnapshot; split <;> rfl

theorem upsertSnapshot_facts (st : Store) (d t : Nat) :
    (upsertSnapshot st d t).1.suburb_listings = st.suburb_listings := by
  unfold upsertSnapshot; split <;> rfl

theorem insertRegionOrIgnore_districts (st : Store) (row : RegionRow) :
    (insertRegionOrIgnore st row).districts = st.districts := by
  unfold insertRegionOrIgnore; split <;> rfl

theorem insertDistrictOrIgnore_regions (st : Store) (row : DistrictRow) :
    (insertDistrictOrIgnore st row).regions = st.regions := by
  unfold insertDistrictOrIgnore; split <;> rfl

theorem insertDistrictOrIgnore_suburbs (st : Store) (row : DistrictRow) :
    (insertDistrictOrIgnore st row).suburbs = st.suburbs := by
  unfold insertDistrictOrIgnore; split <;> rfl

theorem insertSuburbOrIgnore_regions (st : Store) (row : SuburbRow) :
    (insertSuburbOrIgnore st row).regions = st.regions := by
  unfold insertSuburbOrIgnore; split <;> rfl

theorem insertSuburbOrIgnore_districts (st : Store) (row : SuburbRow) :
    (insertSuburbOrIgnore st row).districts = st.districts := by
  unfold insertSuburbOrIgnore; split <;> rfl

theorem processSuburbs_regions_eq (sid ltId did rid : Nat) :
    ∀ (subs : List Suburb) (st : Store),
      (processSuburbs sid ltId did rid st subs).1.regions = st.regions := by
  intro subs
  induction subs with
  | nil => intro st; rfl
  | cons sub rest ih =>
    intro st
    simp only [processSuburbs]
    rw [ih, insertSuburbOrIgnore_regions]

theorem processDistricts_regions_eq (sid ltId rid : Nat) :
    ∀ (ds : List District) (st : Store),
      (processDistricts sid ltId rid st ds).1.regions = st.regions := by
  intro ds
  induction ds with
  | nil => intro st; rfl
  | cons d rest ih =>
    intro st
    simp only [processDistricts]
    rw [ih, processSuburbs_regions_eq, insertDistrictOrIgnore_regions]

/-! ## Reachable-store invariant -/

/-- Every suburb row references an existing district and an existing
region (foreign keys enforced by the schema). -/
def SuburbFKs (st : Store) : Prop :=
  ∀ s ∈ st.suburbs, hasDistrictId st s.district_id ∧ hasRegionId st s.region_id

/-- Every fact row references an existing suburb row. -/
def FactFKs (st : Store) : Prop :=
  ∀ row ∈ st.suburb_listings, hasSuburbId st row.suburb_id

/-- Every fact row has a strictly positive count (sparse-encoding
invariant). -/
def FactsPositive (st : Store) : Prop :=
  ∀ row ∈ st.suburb_listings, 0 < row.listing_count

/-- The invariant maintained by every collection run: referential
integrity, primary-key uniqueness for regions and snapshots, and the
AUTOINCREMENT bound for snapshot ids. -/
structure StoreInv (st : Store) : Prop where
  suburbFKs : SuburbFKs st
  factFKs : FactFKs st
  regionIds : (st.regions.map RegionRow.id).Nodup
  snapIds : (st.snapshots.map SnapshotRow.id).Nodup
  snapLt : ∀ s ∈ st.snapshots, s.id < st.nextSnapshotId

theorem storeInv_init (seed : List ListingTypeRow) : StoreInv (initStore seed) := by
  constructor <;> simp [initStore, SuburbFKs, FactFKs]

theorem suburbFKs_of_extends {st st' : Store} (hfk : SuburbFKs st)
    (h : HierExtends st st') (hs : st'.suburbs = st.suburbs) : SuburbFKs st' := by
  intro s hs'
  rw [hs] at hs'
  exact ⟨hasDistrictId_mono h (hfk s hs').1, hasRegionId_mono h (hfk s hs').2⟩

theorem suburbFKs_insert {st : Store} (row : SuburbRow) (h : SuburbFKs st)
    (hd : hasDistrictId st row.district_id) (hr : hasRegionId st row.region_id) :
    SuburbFKs (insertSuburbOrIgnore st row) := by
  unfold insertSuburbOrIgnore
  split
  · exact h
  · intro s hs
    simp only [hasDistrictId, hasRegionId] at hd hr ⊢
    rcases List.mem_append.1 hs with hs | hs
    · exact ⟨(h s hs).1, (h s hs).2⟩
    · rw [List.mem_singleton.1 hs]
      exact ⟨hd, hr⟩

theorem processSuburbs_fks (sid ltId did rid : Nat) :
    ∀ (subs : List Suburb) (st : Store), SuburbFKs st →
      hasDistrictId st did → hasRegionId st rid →
      SuburbFKs (processSuburbs sid ltId did rid st subs).1 := by
  intro subs
  induction subs with
  | nil => intro st h _ _; exact h
  | cons sub rest ih =>
    intro st h hd hr
    simp only [processSuburbs]
    have hext := insertSuburbOrIgnore_extends st
      { id := sub.SuburbId, name := sub.Name, district_id := did, region_id := rid }
    exact ih _ (suburbFKs_insert _ h hd hr)
      (hasDistrictId_mono hext hd) (hasRegionId_mono hext hr)

theorem processDistricts_fks (sid ltId rid : Nat) :
    ∀ (ds : List District) (st : Store), SuburbFKs st → hasRegionId st rid →
      SuburbFKs (processDistricts sid ltId rid st ds).1 := by
  intro ds
  induction ds with
  | nil => intro st h _; exact h
  | cons d rest ih =>
    intro st h hr
    simp only [processDistricts]
    have hext := insertDistrictOrIgnore_extends st
      { id := d.DistrictId, name := d.Name, region_id := rid }
    have h1 : SuburbFKs (insertDistrictOrIgnore st
        { id := d.DistrictId, name := d.Name, region_id := rid }) :=
      suburbFKs_of_extends h hext (insertDistrictOrIgnore_suburbs st _)
    have h2 := processSuburbs_fks sid ltId d.DistrictId rid d.Suburbs _ h1
      (hasDistrictId_mono (HierExtends.self _) (insertDistrictOrIgnore_has st _))
      (hasRegionId_mono hext hr)
    exact ih _ h2 (hasRegionId_mono (processSuburbs_extends _ _ _ _ _ _)
      (hasRegionId_mono hext hr))

theorem processRegions_fks (sid ltId : Nat) :
    ∀ (rs : List Region) (st : Store), SuburbFKs st →
      SuburbFKs (processRegions sid ltId st rs).1 := by
  intro rs
  induction rs with
  | nil => intro st h; exact h
  | cons r rest ih =>
    intro st h
    simp only [processRegions]
    have hext := insertRegionOrIgnore_extends st { id := r.LocalityId, name := r.Name }
    have h1 : SuburbFKs (insertRegionOrIgnore st { id := r.LocalityId, name := r.Name }) := by
      refine suburbFKs_of_extends h hext ?_
      unfold insertRegionOrIgnore
      split <;> rfl
    exact ih _ (processDistricts_fks sid ltId r.LocalityId r.Districts _ h1
      (insertRegionOrIgnore_has st _))

theorem insertRegionOrIgnore_nodup {st : Store} (row : RegionRow)
    (h : (st.regions.map RegionRow.id).Nodup) :
    ((insertRegionOrIgnore st row).regions.map RegionRow.id).Nodup := by
  unfold insertRegionOrIgnore
  split
  · exact h
  · rename_i hany
    rw [List.map_append]
    rw [List.nodup_append]
    refine ⟨h, List.nodup_singleton _, ?_⟩
    intro a ha hb
    simp only [List.map_cons, List.map_nil, List.mem_singleton] at hb
    obtain ⟨r, hr, hid⟩ := List.mem_map.1 ha
    have : ¬(r.id == row.id) = true := by
      intro hc
      exact hany (List.any_eq_true.2 ⟨r, hr, hc⟩)
    rw [beq_iff_eq] at this
    exact this (hid.trans hb)

theorem processRegions_regionIds (sid ltId : Nat) :
    ∀ (rs : List Region) (st : Store), (st.regions.map RegionRow.id).Nodup →
      ((processRegions sid ltId st rs).1.regions.map RegionRow.id).Nodup := by
  intro rs
  induction rs with
  | nil => intro st h; exact h
  | cons r rest ih =>
    intro st h
    simp only [processRegions]
    apply ih
    rw [processDistricts_regions_eq]
    exact insertRegionOrIgnore_nodup _ h

theorem map_map_id_congr {α β : Type} (g : α → β) (f : α → α) (l : List α)
    (hf : ∀ x, g (f x) = g x) : (l.map f).map g = l.map g := by
  rw [List.map_map]
  exact List.map_congr_left fun x _ => hf x

theorem upsertSnapshot_snapIds {st : Store} (d t : Nat)
    (h : (st.snapshots.map SnapshotRow.id).Nodup)
    (hlt : ∀ s ∈ st.snapshots, s.id < st.nextSnapshotId) :
    ((upsertSnapshot st d t).1.snapshots.map SnapshotRow.id).Nodup
    ∧ ∀ s ∈ (upsertSnapshot st d t).1.snapshots,
        s.id < (upsertSnapshot st d t).1.nextSnapshotId := by
  unfold upsertSnapshot
  split
  · constructor
    · simp only
      rw [map_map_id_congr _ _ _ (by intro x; split <;> rfl)]
      exact h
    · intro s hs
      obtain ⟨s0, hs0, hfs⟩ := List.mem_map.1 hs
      have : s.id = s0.id := by rw [← hfs]; split <;> rfl
      simpa [this] using hlt s0 hs0
  · constructor
    · simp only [List.map_append]
      rw [List.nodup_append]
      refine ⟨h, List.nodup_singleton _, ?_⟩
      intro a ha hb
      simp only [List.map_cons, List.map_nil, List.mem_singleton] at hb
      obtain ⟨s0, hs0, hid⟩ := List.mem_map.1 ha
      have := hlt s0 hs0
      omega
    · intro s hs
      rcases List.mem_append.1 hs with hs | hs
      · have := hlt s hs
        simp only
        omega
      · rw [List.mem_singleton] at hs
        subst hs
        simp

theorem markCompleted_snapIds {st : Store} (sid dur : Nat)
    (h : (st.snapshots.map SnapshotRow.id).Nodup)
    (hlt : ∀ s ∈ st.snapshots, s.id < st.nextSnapshotId) :
    ((markCompleted st sid dur).snapshots.map SnapshotRow.id).Nodup
    ∧ ∀ s ∈ (markCompleted st sid dur).snapshots,
        s.id < (markCompleted st sid dur).nextSnapshotId := by
  unfold markCompleted
  constructor
  · simp only
    rw [map_map_id_congr _ _ _ (by intro x; split <;> rfl)]
    exact h
  · intro s hs
    obtain ⟨s0, hs0, hfs⟩ := List.mem_map.1 hs
    have : s.id = s0.id := by rw [← hfs]; split <;> rfl
    simpa [this] using hlt s0 hs0

theorem allPosSuburbs_mem {rs : List Region} {sub : Suburb}
    (h : sub ∈ allPosSuburbs rs) :
    ∃ r ∈ rs, ∃ d ∈ r.Districts, sub ∈ d.Suburbs := by
  simp only [allPosSuburbs, List.mem_flatMap] at h
  obtain ⟨r, hr, d, hd, hsub⟩ := h
  exact ⟨r, hr, d, hd, List.mem_of_mem_filter hsub⟩

theorem allPosSuburbs_pos {rs : List Region} {sub : Suburb}
    (h : sub ∈ allPosSuburbs rs) : positiveCount sub.Count = true := by
  simp only [allPosSuburbs, List.mem_flatMap] at h
  obtain ⟨r, _, d, _, hsub⟩ := h
  exact (List.mem_filter.1 hsub).2

theorem positiveCount_getD {c : Option Nat} (h : positiveCount c = true) :
    0 < c.getD 0 := by
  cases c with
  | none => simp [positiveCount] at h
  | some n => simpa [positiveCount] using h

/-- The invariant is preserved from the hierarchy-upsert step to the end of
a successful cycle. -/
theorem collect_success_inv {st1 : Store} (h1 : StoreInv st1) (sid ltId dur : Nat)
    (rs : List Region) :
    StoreInv (markCompleted
      (if (processRegions sid ltId st1 rs).2.length > 0 then
        insertFacts (deleteFacts (processRegions sid ltId st1 rs).1 sid ltId)
          (processRegions sid ltId st1 rs).2
      else (processRegions sid ltId st1 rs).1) sid dur) := by
  have hext := processRegions_extends sid ltId rs st1
  have h2 : StoreInv (processRegions sid ltId st1 rs).1 := by
    refine ⟨processRegions_fks _ _ _ _ h1.suburbFKs, ?_,
      processRegions_regionIds _ _ _ _ h1.regionIds, ?_, ?_⟩
    · intro row hrow
      rw [hext.facts_eq] at hrow
      exact hasSuburbId_mono hext (h1.factFKs row hrow)
    · rw [hext.snaps_eq]; exact h1.snapIds
    · rw [hext.snaps_eq, hext.next_eq]; exact h1.snapLt
  have hcov : ∀ f ∈ (processRegions sid ltId st1 rs).2,
      hasSuburbId (processRegions sid ltId st1 rs).1 f.suburb_id := by
    intro f hf
    rw [processRegions_snd] at hf
    obtain ⟨sub, hsub, hfeq⟩ := List.mem_map.1 hf
    obtain ⟨r, hr, dnode, hd, hmem⟩ := allPosSuburbs_mem hsub
    have hc := ((processRegions_covers sid ltId rs st1 r hr).2 dnode hd).2 sub hmem
    rw [← hfeq]
    exact hc
  have h3 : StoreInv (if (processRegions sid ltId st1 rs).2.length > 0 then
      insertFacts (deleteFacts (processRegions sid ltId st1 rs).1 sid ltId)
        (processRegions sid ltId st1 rs).2
      else (processRegions sid ltId st1 rs).1) := by
    split
    · refine ⟨h2.suburbFKs, ?_, h2.regionIds, h2.snapIds, h2.snapLt⟩
      intro row hrow
      simp only [insertFacts, deleteFacts] at hrow
      rcases List.mem_append.1 hrow with hrow | hrow
      · exact h2.factFKs row (List.mem_of_mem_filter hrow)
      · exact hcov row hrow
    · exact h2
  have hmk := markCompleted_snapIds sid dur h3.snapIds h3.snapLt
  exact ⟨h3.suburbFKs, h3.factFKs, h3.regionIds, hmk.1, hmk.2⟩

/-- One collection cycle preserves the reachable-store invariant. -/
theorem collectPropertyData_inv {st : Store} (h : StoreInv st) (lt : String)
    (d t dur : Nat) (fetch : FetchOutcome) :
    StoreInv (collectPropertyData st lt d t dur fetch).1 := by
  cases fetch with
  | fail msg => exact h
  | ok allRegions =>
    simp only [collectPropertyData]
    have hup := upsertSnapshot_snapIds d t h.snapIds h.snapLt
    have h1 : StoreInv (upsertSnapshot st d t).1 := by
      refine ⟨?_, ?_, ?_, hup.1, hup.2⟩
      · intro s hs
        rw [upsertSnapshot_suburbs] at hs
        refine ⟨?_, ?_⟩
        · obtain ⟨row, hrow, hid⟩ := (h.suburbFKs s hs).1
          exact ⟨row, by rw [upsertSnapshot_districts]; exact hrow, hid⟩
        · obtain ⟨row, hrow, hid⟩ := (h.suburbFKs s hs).2
          exact ⟨row, by rw [upsertSnapshot_regions]; exact hrow, hid⟩
      · intro row hrow
        rw [upsertSnapshot_facts] at hrow
        obtain ⟨s, hsmem, hid⟩ := h.factFKs row hrow
        exact ⟨s, by rw [upsertSnapshot_suburbs]; exact hsmem, hid⟩
      · rw [upsertSnapshot_regions]; exact h.regionIds
    split
    · exact h1
    · exact collect_success_inv h1 (upsertSnapshot st d t).2 _ dur _

/-- Every store reachable by a sequence of collection runs from a freshly
migrated database satisfies the invariant. -/
theorem runsFrom_inv {st : Store} (h : StoreInv st) :
    ∀ runs : List RunInput, StoreInv (runsFrom st runs) := by
  intro runs
  induction runs generalizing st with
  | nil => exact h
  | cons run rest ih =>
    exact ih (collectPropertyData_inv h run.listingType run.snapshotDate
      run.collectedAt run.duration run.fetch)

/-! ## Sentinel-exclusion machinery -/

/-- No region row carries the "all locations" sentinel id 100. -/
def NoSentinelRegion (st : Store) : Prop := ∀ row ∈ st.regions, row.id ≠ 100

theorem insertRegionOrIgnore_no100 {st : Store} {row : RegionRow}
    (h : NoSentinelRegion st) (hrow : row.id ≠ 100) :
    NoSentinelRegion (insertRegionOrIgnore st row) := by
  unfold NoSentinelRegion insertRegionOrIgnore
  split
  · exact h
  · intro x hx
    rcases List.mem_append.1 hx with hx | hx
    · exact h x hx
    · rw [List.mem_singleton.1 hx]; exact hrow

theorem processRegions_no100 (sid ltId : Nat) :
    ∀ (rs : List Region) (st : Store), NoSentinelRegion st →
      (∀ r ∈ rs, r.LocalityId ≠ 100) →
      NoSentinelRegion (processRegions sid ltId st rs).1 := by
  intro rs
  induction rs with
  | nil => intro st h _; exact h
  | cons r rest ih =>
    intro st h hrs
    simp only [processRegions]
    apply ih
    · intro x hx
      rw [processDistricts_regions_eq] at hx
      exact insertRegionOrIgnore_no100 h (hrs r (List.mem_cons_self r rest)) x hx
    · intro r2 hr2
      exact hrs r2 (List.mem_cons_of_mem _ hr2)

theorem finalize_regions {c : Prop} [Decidable c] (X : Store)
    (F : List SuburbListingRow) (sid ltId sid2 dur : Nat) :
    (markCompleted (if c then insertFacts (deleteFacts X sid ltId) F else X)
      sid2 dur).regions = X.regions := by
  split <;> rfl

theorem finalize_districts {c : Prop} [Decidable c] (X : Store)
    (F : List SuburbListingRow) (sid ltId sid2 dur : Nat) :
    (markCompleted (if c then insertFacts (deleteFacts X sid ltId) F else X)
      sid2 dur).districts = X.districts := by
  split <;> rfl

theorem finalize_suburbs {c : Prop} [Decidable c] (X : Store)
    (F : List SuburbListingRow) (sid ltId sid2 dur : Nat) :
    (markCompleted (if c then insertFacts (deleteFacts X sid ltId) F else X)
      sid2 dur).suburbs = X.suburbs := by
  split <;> rfl

theorem finalize_types {c : Prop} [Decidable c] (X : Store)
    (F : List SuburbListingRow) (sid ltId sid2 dur : Nat) :
    (markCompleted (if c then insertFacts (deleteFacts X sid ltId) F else X)
      sid2 dur).listing_types = X.listing_types := by
  split <;> rfl

theorem collect_no100 {st : Store} (h : NoSentinelRegion st) (lt : String)
    (d t dur : Nat) (fetch : FetchOutcome) :
    NoSentinelRegion (collectPropertyData st lt d t dur fetch).1 := by
  cases fetch with
  | fail msg => exact h
  | ok p =>
    simp only [collectPropertyData]
    have h1 : NoSentinelRegion (upsertSnapshot st d t).1 := by
      intro x hx
      rw [upsertSnapshot_regions] at hx
      exact h x hx
    split
    · exact h1
    · intro x hx
      rw [finalize_regions] at hx
      refine processRegions_no100 _ _ _ _ h1 ?_ x hx
      intro r hr
      have := List.of_mem_filter hr
      simp only [Bool.not_eq_true'] at this
      intro hc
      rw [hc] at this
      simp at this

theorem runsFrom_no100 {st : Store} (h : NoSentinelRegion st)
    (runs : List RunInput) : NoSentinelRegion (runsFrom st runs) := by
  induction runs generalizing st with
  | nil => exact h
  | cons run rest ih => exact ih (collect_no100 h _ _ _ _ _)

/-! ## Positivity machinery -/

theorem collect_success_factsPos {st1 : Store} (h1 : FactsPositive st1)
    (sid ltId dur : Nat) (rs : List Region) :
    FactsPositive (markCompleted
      (if (processRegions sid ltId st1 rs).2.length > 0 then
        insertFacts (deleteFacts (processRegions sid ltId st1 rs).1 sid ltId)
          (processRegions sid ltId st1 rs).2
      else (processRegions sid ltId st1 rs).1) sid dur) := by
  have hext := processRegions_extends sid ltId rs st1
  have h2 : FactsPositive (processRegions sid ltId st1 rs).1 := by
    intro row hrow
    rw [hext.facts_eq] at hrow
    exact h1 row hrow
  have hpos : ∀ row ∈ (processRegions sid ltId st1 rs).2, 0 < row.listing_count := by
    intro row hrow
    rw [processRegions_snd] at hrow
    obtain ⟨sub, hsub, hfeq⟩ := List.mem_map.1 hrow
    rw [← hfeq]
    exact positiveCount_getD (allPosSuburbs_pos hsub)
  intro row hrow
  split at hrow
  · rcases List.mem_append.1 hrow with hm | hm
    · exact h2 row (List.mem_of_mem_filter hm)
    · exact hpos row hm
  · exact h2 row hrow

theorem collect_factsPos {st : Store} (h : FactsPositive st) (lt : String)
    (d t dur : Nat) (fetch : FetchOutcome) :
    FactsPositive (collectPropertyData st lt d t dur fetch).1 := by
  cases fetch with
  | fail msg => exact h
  | ok p =>
    simp only [collectPropertyData]
    have h1 : FactsPositive (upsertSnapshot st d t).1 := by
      intro row hrow
      rw [upsertSnapshot_facts] at hrow
      exact h row hrow
    split
    · exact h1
    · exact collect_success_factsPos h1 (upsertSnapshot st d t).2 _ dur _

theorem runsFrom_factsPos {st : Store} (h : FactsPositive st)
    (runs : List RunInput) : FactsPositive (runsFrom st runs) := by
  induction runs generalizing st with
  | nil => exact h
  | cons run rest ih => exact ih (collect_factsPos h _ _ _ _ _)

/-! ## Hierarchy-growth machinery -/

theorem collect_hier_grows (st : Store) (lt : String) (d t dur : Nat)
    (fetch : FetchOutcome) :
    (∃ l, (collectPropertyData st lt d t dur fetch).1.regions = st.regions ++ l)
    ∧ (∃ l, (collectPropertyData st lt d t dur fetch).1.districts = st.districts ++ l)
    ∧ (∃ l, (collectPropertyData st lt d t dur fetch).1.suburbs = st.suburbs ++ l) := by
  cases fetch with
  | fail msg =>
    exact ⟨⟨[], by simp [collectPropertyData]⟩, ⟨[], by simp [collectPropertyData]⟩,
      ⟨[], by simp [collectPropertyData]⟩⟩
  | ok p =>
    simp only [collectPropertyData]
    split
    · exact ⟨⟨[], by simp [upsertSnapshot_regions]⟩,
        ⟨[], by simp [upsertSnapshot_districts]⟩,
        ⟨[], by simp [upsertSnapshot_suburbs]⟩⟩
    · rename_i ltRow hfind
      have hext := processRegions_extends (upsertSnapshot st d t).2 ltRow.id
        (p.filter fun r => !(r.LocalityId == 100)) (upsertSnapshot st d t).1
      obtain ⟨lr, hlr⟩ := hext.regions_ext
      obtain ⟨ld, hld⟩ := hext.districts_ext
      obtain ⟨ls, hls⟩ := hext.suburbs_ext
      refine ⟨⟨lr, ?_⟩, ⟨ld, ?_⟩, ⟨ls, ?_⟩⟩
      · rw [finalize_regions, hlr, upsertSnapshot_regions]
      · rw [finalize_districts, hld, upsertSnapshot_districts]
      · rw [finalize_suburbs, hls, upsertSnapshot_suburbs]

theorem runsFrom_hier_grows (st : Store) (runs : List RunInput) :
    (∃ l, (runsFrom st runs).regions = st.regions ++ l)
    ∧ (∃ l, (runsFrom st runs).districts = st.districts ++ l)
    ∧ (∃ l, (runsFrom st runs).suburbs = st.suburbs ++ l) := by
  induction runs generalizing st with
  | nil => exact ⟨⟨[], by simp [runsFrom]⟩, ⟨[], by simp [runsFrom]⟩, ⟨[], by simp [runsFrom]⟩⟩
  | cons run rest ih =>
    obtain ⟨⟨lr, hlr⟩, ⟨ld, hld⟩, ⟨ls, hls⟩⟩ :=
      collect_hier_grows st run.listingType run.snapshotDate run.collectedAt
        run.duration run.fetch
    obtain ⟨⟨lr2, hlr2⟩, ⟨ld2, hld2⟩, ⟨ls2, hls2⟩⟩ := ih (runOnce st run)
    refine ⟨⟨lr ++ lr2, ?_⟩, ⟨ld ++ ld2, ?_⟩, ⟨ls ++ ls2, ?_⟩⟩
    · show (runsFrom (runOnce st run) rest).regions = _
      rw [hlr2]
      show (collectPropertyData st run.listingType run.snapshotDate run.collectedAt
        run.duration run.fetch).1.regions ++ lr2 = _
      rw [hlr, List.append_assoc]
    · show (runsFrom (runOnce st run) rest).districts = _
      rw [hld2]
      show (collectPropertyData st run.listingType run.snapshotDate run.collectedAt
        run.duration run.fetch).1.districts ++ ld2 = _
      rw [hld, List.append_assoc]
    · show (runsFrom (runOnce st run) rest).suburbs = _
      rw [hls2]
      show (collectPropertyData st run.listingType run.snapshotDate run.collectedAt
        run.duration run.fetch).1.suburbs ++ ls2 = _
      rw [hls, List.append_assoc]

/-! ## Count-field independence machinery -/

/-- Replace the (never-read) region-level and district-level count fields of
a payload by arbitrary values. -/
def setLevelCounts (f g : Nat → Option Nat) (rs : List Region) : List Region :=
  rs.map fun r =>
    { r with Count := f r.LocalityId,
             Districts := r.Districts.map fun d => { d with Count := g d.DistrictId } }

theorem filter_setLevelCounts (f g : Nat → Option Nat) (p : List Region) :
    (setLevelCounts f g p).filter (fun r => !(r.LocalityId == 100))
      = setLevelCounts f g (p.filter fun r => !(r.LocalityId == 100)) := by
  unfold setLevelCounts
  rw [List.filter_map]
  rfl

theorem allPosSuburbs_setLevelCounts (f g : Nat → Option Nat) (rs : List Region) :
    allPosSuburbs (setLevelCounts f g rs) = allPosSuburbs rs := by
  unfold allPosSuburbs setLevelCounts
  rw [List.flatMap_map]
  apply List.flatMap_congr
  intro r _
  rw [List.flatMap_map]

theorem sumPositiveSuburbs_setLevelCounts (f g : Nat → Option Nat) (rs : List Region) :
    sumPositiveSuburbs (setLevelCounts f g rs) = sumPositiveSuburbs rs := by
  unfold sumPositiveSuburbs
  rw [allPosSuburbs_setLevelCounts]

theorem processDistricts_setCounts (sid ltId rid : Nat) (g : Nat → Option Nat) :
    ∀ (ds : List District) (st : Store),
      processDistricts sid ltId rid st
        (ds.map fun d => { d with Count := g d.DistrictId })
      = processDistricts sid ltId rid st ds := by
  intro ds
  induction ds with
  | nil => intro st; rfl
  | cons d rest ih =>
    intro st
    simp only [List.map_cons, processDistricts]
    rw [ih]

theorem processRegions_setCountsMap (sid ltId : Nat) (f g : Nat → Option Nat) :
    ∀ (rs : List Region) (st : Store),
      processRegions sid ltId st (rs.map fun r =>
        { r with Count := f r.LocalityId,
                 Districts := r.Districts.map fun d =>
                   { d with Count := g d.DistrictId } })
        = processRegions sid ltId st rs := by
  intro rs
  induction rs with
  | nil => intro st; rfl
  | cons r rest ih =>
    intro st
    simp only [List.map_cons, processRegions]
    rw [processDistricts_setCounts, ih]

theorem processRegions_setCounts (sid ltId : Nat) (f g : Nat → Option Nat)
    (rs : List Region) (st : Store) :
    processRegions sid ltId st (setLevelCounts f g rs)
      = processRegions sid ltId st rs :=
  processRegions_setCountsMap sid ltId f g rs st

theorem upsertSnapshot_row_exists (st : Store) (d t : Nat) :
    ∃ row ∈ (upsertSnapshot st d t).1.snapshots,
      row.snapshot_date = d ∧ row.status = "in_progress" ∧ row.collected_at = t := by
  unfold upsertSnapshot
  cases hf : st.snapshots.find? (fun s => s.snapshot_date == d) with
  | some row =>
    have hmem := List.mem_of_find?_eq_some hf
    have hdate : (row.snapshot_date == d) = true := by
      have hp := List.find?_some hf
      exact hp
    refine ⟨{ row with collected_at := t, status := "in_progress" }, ?_, ?_, rfl, rfl⟩
    · simp only
      exact List.mem_map.2 ⟨row, hmem, by rw [if_pos hdate]⟩
    · exact beq_iff_eq.1 hdate
  | none =>
    exact ⟨_, List.mem_append_right _ (List.mem_singleton.2 rfl), rfl, rfl, rfl⟩

theorem hasRegionId_of_field_eq {st st' : Store} (h : st'.regions = st.regions)
    {i : Nat} (hi : hasRegionId st i) : hasRegionId st' i := by
  obtain ⟨row, hm, hid⟩ := hi
  exact ⟨row, h ▸ hm, hid⟩

theorem hasDistrictId_of_field_eq {st st' : Store} (h : st'.districts = st.districts)
    {i : Nat} (hi : hasDistrictId st i) : hasDistrictId st' i := by
  obtain ⟨row, hm, hid⟩ := hi
  exact ⟨row, h ▸ hm, hid⟩

theorem hasSuburbId_of_field_eq {st st' : Store} (h : st'.suburbs = st.suburbs)
    {i : Nat} (hi : hasSuburbId st i) : hasSuburbId st' i := by
  obtain ⟨row, hm, hid⟩ := hi
  exact ⟨row, h ▸ hm, hid⟩

/-! ## Snapshot bookkeeping across re-runs -/

theorem find?_append_none {α : Type} (p : α → Bool) (l1 l2 : List α)
    (h : l1.find? p = none) : (l1 ++ l2).find? p = l2.find? p := by
  induction l1 with
  | nil => rfl
  | cons x t ih =>
    cases hx : p x with
    | true =>
      rw [List.find?_cons_of_pos _ hx] at h
      cases h
    | false =>
      rw [List.find?_cons_of_neg _ (by simp [hx])] at h
      rw [List.cons_append, List.find?_cons_of_neg _ (by simp [hx])]
      exact ih h

theorem find?_map_pred {α : Type} (p : α → Bool) (f : α → α) (l : List α)
    (hf : ∀ x, p (f x) = p x) : (l.map f).find? p = (l.find? p).map f := by
  induction l with
  | nil => rfl
  | cons x t ih =>
    cases hx : p x with
    | true =>
      rw [List.map_cons, List.find?_cons_of_pos _ (by rw [hf]; exact hx),
        List.find?_cons_of_pos _ hx]
      rfl
    | false =>
      rw [List.map_cons, List.find?_cons_of_neg _ (by simp [hf, hx]),
        List.find?_cons_of_neg _ (by simp [hx])]
      exact ih

theorem upsertSnapshot_sid (st : Store) (d t : Nat) :
    (upsertSnapshot st d t).2 = upsertSid st d := by
  unfold upsertSnapshot upsertSid
  cases hf : st.snapshots.find? (fun s => s.snapshot_date == d) <;> rfl

theorem upsertSnapshot_snapProj (st : Store) (d t : Nat) :
    snapProj (upsertSnapshot st d t).1
      = snapProj st
        ++ (match st.snapshots.find? (fun s => s.snapshot_date == d) with
            | some _ => []
            | none => [(st.nextSnapshotId, d)]) := by
  unfold upsertSnapshot snapProj
  cases hf : st.snapshots.find? (fun s => s.snapshot_date == d) with
  | some row =>
    simp only [List.append_nil]
    exact map_map_id_congr _ _ _ (by intro x; split <;> rfl)
  | none =>
    simp [List.map_append]

theorem upsertSnapshot_sidByDate (st : Store) (d t : Nat) :
    sidByDate (upsertSnapshot st d t).1 d = some (upsertSid st d) := by
  unfold upsertSnapshot sidByDate upsertSid
  cases hf : st.snapshots.find? (fun s => s.snapshot_date == d) with
  | some row =>
    simp only
    rw [find?_map_pred _ _ _ (by intro x; split <;> rfl), hf]
    have hdate : (row.snapshot_date == d) = true := by
      have hp := List.find?_some hf
      exact hp
    simp only [Option.map_some']
    congr 1
    split <;> rfl
  | none =>
    simp only
    rw [find?_append_none _ _ _ hf]
    rw [List.find?_cons_of_pos _ (by simp)]
    rfl

theorem markCompleted_snapProj (st : Store) (sid dur : Nat) :
    snapProj (markCompleted st sid dur) = snapProj st := by
  unfold markCompleted snapProj
  exact map_map_id_congr _ _ _ (by intro x; split <;> rfl)

theorem markCompleted_sidByDate (st : Store) (sid dur d : Nat) :
    sidByDate (markCompleted st sid dur) d = sidByDate st d := by
  unfold markCompleted sidByDate
  rw [find?_map_pred _ _ _ (by intro x; split <;> rfl)]
  cases hf : st.snapshots.find? (fun s => s.snapshot_date == d) with
  | none => rfl
  | some row =>
    simp only [Option.map_some']
    congr 1
    split <;> rfl

theorem snapProj_congr {st st' : Store} (h : st'.snapshots = st.snapshots) :
    snapProj st' = snapProj st := by
  unfold snapProj
  rw [h]

theorem sidByDate_congr {st st' : Store} (h : st'.snapshots = st.snapshots)
    (d : Nat) : sidByDate st' d = sidByDate st d := by
  unfold sidByDate
  rw [h]

theorem upsertSid_of_sidByDate {st : Store} {d i : Nat}
    (h : sidByDate st d = some i) : upsertSid st d = i := by
  unfold sidByDate at h
  unfold upsertSid
  cases hf : st.snapshots.find? (fun s => s.snapshot_date == d) with
  | some row =>
    rw [hf] at h
    simpa using h
  | none =>
    rw [hf] at h
    cases h

theorem if_facts_snapshots {c : Prop} [Decidable c] (X : Store)
    (F : List SuburbListingRow) (sid ltId : Nat) :
    (if c then insertFacts (deleteFacts X sid ltId) F else X).snapshots
      = X.snapshots := by
  split <;> rfl

theorem runOnce_types (st : Store) (run : RunInput) :
    (runOnce st run).listing_types = st.listing_types := by
  unfold runOnce
  cases hfetch : run.fetch with
  | fail msg => rfl
  | ok p =>
    simp only [collectPropertyData]
    cases hfind : List.find? (fun x => x.code == run.listingType)
        (upsertSnapshot st run.snapshotDate run.collectedAt).1.listing_types with
    | none => exact upsertSnapshot_types st _ _
    | some ltRow =>
      rw [finalize_types, (processRegions_extends _ _ _ _).types_eq,
        upsertSnapshot_types]

/-- The final store of a successful cycle whose listing type resolves to
`ltRow`, spelled out. -/
theorem success_shape (st : Store) (lt : String) (d t dur : Nat) (p : List Region)
    (ltRow : ListingTypeRow)
    (hfind : List.find? (fun x => x.code == lt) st.listing_types = some ltRow) :
    (collectPropertyData st lt d t dur (.ok p)).1
      = markCompleted
          (if (processRegions (upsertSnapshot st d t).2 ltRow.id
                (upsertSnapshot st d t).1
                (p.filter fun r => !(r.LocalityId == 100))).2.length > 0 then
            insertFacts
              (deleteFacts
                (processRegions (upsertSnapshot st d t).2 ltRow.id
                  (upsertSnapshot st d t).1
                  (p.filter fun r => !(r.LocalityId == 100))).1
                (upsertSnapshot st d t).2 ltRow.id)
              (processRegions (upsertSnapshot st d t).2 ltRow.id
                (upsertSnapshot st d t).1
                (p.filter fun r => !(r.LocalityId == 100))).2
          else
            (processRegions (upsertSnapshot st d t).2 ltRow.id
              (upsertSnapshot st d t).1
              (p.filter fun r => !(r.LocalityId == 100))).1)
          (upsertSnapshot st d t).2 dur := by
  have hfind2 : List.find? (fun x => x.code == lt)
      (upsertSnapshot st d t).1.listing_types = some ltRow := by
    rw [upsertSnapshot_types]
    exact hfind
  simp only [collectPropertyData]
  rw [hfind2]

theorem any_map_general {α β : Type} (f : α → β) (p : β → Bool) (l : List α) :
    (l.map f).any p = l.any fun x => p (f x) := by
  induction l with
  | nil => rfl
  | cons x t ih => simp only [List.map_cons, List.any_cons, ih]

/-- The date-keyed fact query only reads the listing types, the (id, date)
projection of the snapshots, and the fact rows. -/
theorem factRowsForDate_congr {stA stB : Store}
    (hlt : stA.listing_types = stB.listing_types)
    (hsnap : snapProj stA = snapProj stB)
    (hsl : stA.suburb_listings = stB.suburb_listings) (d : Nat) (code : String) :
    factRowsForDate stA d code = factRowsForDate stB d code := by
  unfold factRowsForDate factHasCode
  rw [hsl, hlt]
  apply List.filter_congr
  intro row _
  congr 1
  have hA : (stA.snapshots.any fun s => s.id == row.snapshot_id && s.snapshot_date == d)
      = (snapProj stA).any fun q => q.1 == row.snapshot_id && q.2 == d := by
    unfold snapProj
    rw [any_map_general]
  have hB : (stB.snapshots.any fun s => s.id == row.snapshot_id && s.snapshot_date == d)
      = (snapProj stB).any fun q => q.1 == row.snapshot_id && q.2 == d := by
    unfold snapProj
    rw [any_map_general]
  rw [hA, hB, hsnap]

theorem factsP_of_mem {sid ltId : Nat} {subs : List Suburb} {row : SuburbListingRow}
    (h : row ∈ subs.map (mkFactRow sid ltId)) :
    (row.snapshot_id == sid && row.listing_type_id == ltId) = true := by
  obtain ⟨sub, _, hfeq⟩ := List.mem_map.1 h
  rw [← hfeq]
  simp [mkFactRow]

theorem filter_not_self (sid ltId : Nat) (subs : List Suburb) :
    (subs.map (mkFactRow sid ltId)).filter
      (fun row => !(row.snapshot_id == sid && row.listing_type_id == ltId)) = [] := by
  rw [List.filter_eq_nil_iff]
  intro row hrow
  rw [factsP_of_mem hrow]
  simp

theorem filter_not_idem {α : Type} (p : α → Bool) (l : List α) :
    (l.filter p).filter p = l.filter p := by
  rw [List.filter_filter]
  apply List.filter_congr
  intro x _
  exact Bool.and_self _

theorem runOnce_snapProj {st : Store} {r : RunInput} {p : List Region}
    (hfetch : r.fetch = .ok p) :
    snapProj (runOnce st r)
      = snapProj (upsertSnapshot st r.snapshotDate r.collectedAt).1 := by
  unfold runOnce
  rw [hfetch]
  simp only [collectPropertyData]
  cases hfind : List.find? (fun x => x.code == r.listingType)
      (upsertSnapshot st r.snapshotDate r.collectedAt).1.listing_types with
  | none => rfl
  | some ltRow =>
    rw [markCompleted_snapProj]
    apply snapProj_congr
    rw [if_facts_snapshots, (processRegions_extends _ _ _ _).snaps_eq]

theorem runOnce_sidByDate {st : Store} {r : RunInput} {p : List Region}
    (hfetch : r.fetch = .ok p) :
    sidByDate (runOnce st r) r.snapshotDate
      = some (upsertSid st r.snapshotDate) := by
  unfold runOnce
  rw [hfetch]
  simp only [collectPropertyData]
  cases hfind : List.find? (fun x => x.code == r.listingType)
      (upsertSnapshot st r.snapshotDate r.collectedAt).1.listing_types with
  | none => exact upsertSnapshot_sidByDate st _ _
  | some ltRow =>
    rw [markCompleted_sidByDate]
    refine Eq.trans (sidByDate_congr ?_ r.snapshotDate)
      (upsertSnapshot_sidByDate st r.snapshotDate r.collectedAt)
    rw [if_facts_snapshots, (processRegions_extends _ _ _ _).snaps_eq]

theorem runOnce_sl_success {st : Store} {r : RunInput} {p : List Region}
    (hfetch : r.fetch = .ok p) (ltRow : ListingTypeRow)
    (hfind : List.find? (fun x => x.code == r.listingType) st.listing_types = some ltRow)
    (hne : allPosSuburbs (p.filter fun x => !(x.LocalityId == 100)) ≠ []) :
    (runOnce st r).suburb_listings
      = (st.suburb_listings.filter fun row =>
          !(row.snapshot_id == upsertSid st r.snapshotDate
            && row.listing_type_id == ltRow.id))
        ++ (allPosSuburbs (p.filter fun x => !(x.LocalityId == 100))).map
            (mkFactRow (upsertSid st r.snapshotDate) ltRow.id) := by
  unfold runOnce
  rw [hfetch, success_shape st r.listingType r.snapshotDate r.collectedAt
    r.duration p ltRow hfind]
  have hsnd := processRegions_snd (upsertSnapshot st r.snapshotDate r.collectedAt).2
    ltRow.id (p.filter fun x => !(x.LocalityId == 100))
    (upsertSnapshot st r.snapshotDate r.collectedAt).1
  have hc : (processRegions (upsertSnapshot st r.snapshotDate r.collectedAt).2 ltRow.id
      (upsertSnapshot st r.snapshotDate r.collectedAt).1
      (p.filter fun x => !(x.LocalityId == 100))).2.length > 0 := by
    rw [hsnd, List.length_map]
    exact List.length_pos.2 hne
  rw [if_pos hc]
  simp only [markCompleted, insertFacts, deleteFacts]
  rw [hsnd, (processRegions_extends _ _ _ _).facts_eq, upsertSnapshot_facts,
    upsertSnapshot_sid]

theorem runOnce_facts_filter (st : Store) (r : RunInput) (ltRow : ListingTypeRow)
    (hfind : List.find? (fun x => x.code == r.listingType) st.listing_types = some ltRow) :
    (runOnce st r).suburb_listings.filter
        (fun row => !(row.snapshot_id == upsertSid st r.snapshotDate
          && row.listing_type_id == ltRow.id))
      = st.suburb_listings.filter
        (fun row => !(row.snapshot_id == upsertSid st r.snapshotDate
          && row.listing_type_id == ltRow.id)) := by
  cases hfetch : r.fetch with
  | fail msg =>
    have hr : runOnce st r = st := by
      unfold runOnce
      rw [hfetch]
      rfl
    rw [hr]
  | ok p =>
    by_cases hne : allPosSuburbs (p.filter fun x => !(x.LocalityId == 100)) = []
    · have hsl : (runOnce st r).suburb_listings = st.suburb_listings := by
        unfold runOnce
        rw [hfetch, success_shape st r.listingType r.snapshotDate r.collectedAt
          r.duration p ltRow hfind]
        have hsnd := processRegions_snd (upsertSnapshot st r.snapshotDate r.collectedAt).2
          ltRow.id (p.filter fun x => !(x.LocalityId == 100))
          (upsertSnapshot st r.snapshotDate r.collectedAt).1
        have hc : ¬((processRegions (upsertSnapshot st r.snapshotDate r.collectedAt).2
            ltRow.id (upsertSnapshot st r.snapshotDate r.collectedAt).1
            (p.filter fun x => !(x.LocalityId == 100))).2.length > 0) := by
          rw [hsnd, List.length_map, hne]
          simp
        rw [if_neg hc]
        simp only [markCompleted]
        rw [(processRegions_extends _ _ _ _).facts_eq, upsertSnapshot_facts]
      rw [hsl]
    · rw [runOnce_sl_success hfetch ltRow hfind hne, List.filter_append,
        filter_not_idem, filter_not_self, List.append_nil]

/-! ## Denormalized region consistency under a stable district-region map -/

/-- Every district row's region is the one a fixed map assigns to its id,
and every suburb row's denormalized region is the one assigned to its
district. -/
def RhoConsistent (rho : Nat → Nat) (st : Store) : Prop :=
  (∀ d ∈ st.districts, d.region_id = rho d.id)
  ∧ ∀ s ∈ st.suburbs, s.region_id = rho s.district_id

theorem rho_of_fields {rho : Nat → Nat} {st st' : Store} (h : RhoConsistent rho st)
    (hd : st'.districts = st.districts) (hs : st'.suburbs = st.suburbs) :
    RhoConsistent rho st' := by
  constructor
  · intro d hdm
    rw [hd] at hdm
    exact h.1 d hdm
  · intro s hsm
    rw [hs] at hsm
    exact h.2 s hsm

theorem rho_insertRegion {rho : Nat → Nat} {st : Store} (h : RhoConsistent rho st)
    (row : RegionRow) : RhoConsistent rho (insertRegionOrIgnore st row) :=
  rho_of_fields h (insertRegionOrIgnore_districts st row) (by
    unfold insertRegionOrIgnore
    split <;> rfl)

theorem rho_insertDistrict {rho : Nat → Nat} {st : Store} (h : RhoConsistent rho st)
    (row : DistrictRow) (hrow : row.region_id = rho row.id) :
    RhoConsistent rho (insertDistrictOrIgnore st row) := by
  unfold insertDistrictOrIgnore
  split
  · exact h
  · constructor
    · intro d hdm
      rcases List.mem_append.1 hdm with hm | hm
      · exact h.1 d hm
      · rw [List.mem_singleton.1 hm]
        exact hrow
    · exact h.2

theorem rho_insertSuburb {rho : Nat → Nat} {st : Store} (h : RhoConsistent rho st)
    (row : SuburbRow) (hrow : row.region_id = rho row.district_id) :
    RhoConsistent rho (insertSuburbOrIgnore st row) := by
  unfold insertSuburbOrIgnore
  split
  · exact h
  · constructor
    · exact h.1
    · intro s hsm
      rcases List.mem_append.1 hsm with hm | hm
      · exact h.2 s hm
      · rw [List.mem_singleton.1 hm]
        exact hrow

theorem rho_processSuburbs (rho : Nat → Nat) (sid ltId did rid : Nat)
    (hrho : rho did = rid) :
    ∀ (subs : List Suburb) (st : Store), RhoConsistent rho st →
      RhoConsistent rho (processSuburbs sid ltId did rid st subs).1 := by
  intro subs
  induction subs with
  | nil => intro st h; exact h
  | cons sub rest ih =>
    intro st h
    simp only [processSuburbs]
    exact ih _ (rho_insertSuburb h _ hrho.symm)

theorem rho_processDistricts (rho : Nat → Nat) (sid ltId rid : Nat) :
    ∀ (ds : List District) (st : Store), RhoConsistent rho st →
      (∀ d ∈ ds, rho d.DistrictId = rid) →
      RhoConsistent rho (processDistricts sid ltId rid st ds).1 := by
  intro ds
  induction ds with
  | nil => intro st h _; exact h
  | cons d rest ih =>
    intro st h hds
    simp only [processDistricts]
    refine ih _ ?_ fun d2 hd2 => hds d2 (List.mem_cons_of_mem _ hd2)
    exact rho_processSuburbs rho sid ltId d.DistrictId rid
      (hds d (List.mem_cons_self d rest)) d.Suburbs _
      (rho_insertDistrict h _ (hds d (List.mem_cons_self d rest)).symm)

theorem rho_processRegions (rho : Nat → Nat) (sid ltId : Nat) :
    ∀ (rs : List Region) (st : Store), RhoConsistent rho st →
      (∀ r ∈ rs, ∀ dn ∈ r.Districts, rho dn.DistrictId = r.LocalityId) →
      RhoConsistent rho (processRegions sid ltId st rs).1 := by
  intro rs
  induction rs with
  | nil => intro st h _; exact h
  | cons r rest ih =>
    intro st h hrs
    simp only [processRegions]
    refine ih _ ?_ fun r2 hr2 => hrs r2 (List.mem_cons_of_mem _ hr2)
    exact rho_processDistricts rho sid ltId r.LocalityId r.Districts _
      (rho_insertRegion h _) (hrs r (List.mem_cons_self r rest))

theorem rho_collect {rho : Nat → Nat} {st : Store} (h : RhoConsistent rho st)
    (lt : String) (d t dur : Nat) (fetch : FetchOutcome)
    (hpay : ∀ r ∈ payloadOf fetch, r.LocalityId ≠ 100 →
      ∀ dn ∈ r.Districts, rho dn.DistrictId = r.LocalityId) :
    RhoConsistent rho (collectPropertyData st lt d t dur fetch).1 := by
  cases fetch with
  | fail msg => exact h
  | ok p =>
    simp only [collectPropertyData]
    have h1 : RhoConsistent rho (upsertSnapshot st d t).1 :=
      rho_of_fields h (upsertSnapshot_districts st d t) (upsertSnapshot_suburbs st d t)
    split
    · exact h1
    · refine rho_of_fields ?_ (finalize_districts _ _ _ _ _ _) (finalize_suburbs _ _ _ _ _ _)
      refine rho_processRegions rho _ _ _ _ h1 ?_
      intro r hr dn hdn
      have hq := List.of_mem_filter hr
      simp only [Bool.not_eq_true', beq_eq_false_iff_ne, ne_eq] at hq
      exact hpay r (List.mem_of_mem_filter hr) hq dn hdn

theorem rho_runsFrom {rho : Nat → Nat} {st : Store} (h : RhoConsistent rho st)
    (runs : List RunInput)
    (hruns : ∀ run ∈ runs, ∀ r ∈ payloadOf run.fetch, r.LocalityId ≠ 100 →
      ∀ dn ∈ r.Districts, rho dn.DistrictId = r.LocalityId) :
    RhoConsistent rho (runsFrom st runs) := by
  induction runs generalizing st with
  | nil => exact h
  | cons run rest ih =>
    exact ih (rho_collect h _ _ _ _ _ (hruns run (List.mem_cons_self run rest)))
      fun run2 hr2 => hruns run2 (List.mem_cons_of_mem _ hr2)

/-! ## Aggregation sums under the reachable-store invariant -/

theorem find_row_some {α : Type} (l : List α) (f : α → Nat) (i : Nat)
    (h : ∃ row ∈ l, f row = i) :
    ∃ row, l.find? (fun x => f x == i) = some row ∧ row ∈ l ∧ f row = i := by
  obtain ⟨row, hm, hid⟩ := h
  have hsome : (l.find? fun x => f x == i).isSome = true := by
    rw [List.find?_isSome]
    exact ⟨row, hm, by simp [hid]⟩
  obtain ⟨row2, hrow2⟩ := Option.isSome_iff_exists.1 hsome
  refine ⟨row2, hrow2, List.mem_of_find?_eq_some hrow2, ?_⟩
  have hp := List.find?_some hrow2
  exact beq_iff_eq.1 hp

theorem regionJoin_sum {st : Store} (hinv : StoreInv st) (code : String) :
    ((regionJoin st code).map fun t => t.1.listing_count).sum
      = ((latestFacts st code).map fun row => row.listing_count).sum := by
  unfold regionJoin latestFacts
  cases hl : latestSnapshotId st code with
  | none => rfl
  | some sid =>
    unfold snapRegionJoin
    apply filterMap_total_sum
    intro row hrow
    have hrow' : row ∈ st.suburb_listings := List.mem_of_mem_filter hrow
    obtain ⟨srow, hs1, hs2, hs3⟩ := find_row_some st.suburbs (fun s => s.id)
      row.suburb_id (hinv.factFKs row hrow')
    obtain ⟨rrow, hr1, hr2, hr3⟩ := find_row_some st.regions (fun r => r.id)
      srow.region_id ((hinv.suburbFKs srow hs2).2)
    refine ⟨(row, srow, rrow), ?_, rfl⟩
    unfold findSuburb findRegion
    rw [hs1]
    simp only [Option.some_bind]
    rw [hr1]
    rfl

theorem districtJoin_sum {st : Store} (hinv : StoreInv st) (code : String) :
    ((districtJoin st code).map fun t => t.1.listing_count).sum
      = ((latestFacts st code).map fun row => row.listing_count).sum := by
  unfold districtJoin latestFacts
  cases hl : latestSnapshotId st code with
  | none => rfl
  | some sid =>
    unfold snapFullJoin
    apply filterMap_total_sum
    intro row hrow
    have hrow' : row ∈ st.suburb_listings := List.mem_of_mem_filter hrow
    obtain ⟨srow, hs1, hs2, hs3⟩ := find_row_some st.suburbs (fun s => s.id)
      row.suburb_id (hinv.factFKs row hrow')
    obtain ⟨drow, hd1, hd2, hd3⟩ := find_row_some st.districts (fun dd => dd.id)
      srow.district_id ((hinv.suburbFKs srow hs2).1)
    obtain ⟨rrow, hr1, hr2, hr3⟩ := find_row_some st.regions (fun r => r.id)
      srow.region_id ((hinv.suburbFKs srow hs2).2)
    refine ⟨(row, srow, drow, rrow), ?_, rfl⟩
    unfold findSuburb findDistrict findRegion
    rw [hs1]
    simp only [Option.some_bind]
    rw [hd1]
    simp only [Option.some_bind]
    rw [hr1]
    rfl

theorem getRegionTotalsAll_sum (st : Store) (code : String) :
    ((getRegionTotalsAll st code).map RegionTotalRow.total_listings).sum
      = ((regionJoin st code).map fun t => t.1.listing_count).sum := by
  simp only [getRegionTotalsAll]
  rw [List.Perm.sum_eq (List.Perm.map _ (List.perm_insertionSort _ _))]
  rw [List.map_map]
  rw [List.map_congr_left (fun k _ => rfl)]
  exact grouped_sum_dedup (regionJoin st code)
    (fun (t : SuburbListingRow × SuburbRow × RegionRow) => t.2.2.id)
    (fun t => t.1.listing_count)

theorem getDistrictTotalsAll_sum (st : Store) (code : String) (rid : Nat) :
    ((getDistrictTotalsAll st code rid).map DistrictTotalRow.total_listings).sum
      = (((districtJoin st code).filter fun t => t.2.2.2.id == rid).map
          fun t => t.1.listing_count).sum := by
  simp only [getDistrictTotalsAll]
  rw [List.Perm.sum_eq (List.Perm.map _ (List.perm_insertionSort _ _))]
  rw [List.map_map]
  rw [List.map_congr_left (fun k _ => rfl)]
  exact grouped_sum_dedup
    ((districtJoin st code).filter fun t => t.2.2.2.id == rid)
    (fun (t : SuburbListingRow × SuburbRow × DistrictRow × RegionRow) => t.2.2.1.id)
    (fun t => t.1.listing_count)

theorem districtJoin_region_mem {st : Store} {code : String}
    {t : SuburbListingRow × SuburbRow × DistrictRow × RegionRow}
    (h : t ∈ districtJoin st code) : t.2.2.2 ∈ st.regions := by
  unfold districtJoin at h
  cases hl : latestSnapshotId st code with
  | none => rw [hl] at h; cases h
  | some sid =>
    rw [hl] at h
    unfold snapFullJoin at h
    obtain ⟨row, hrow, hF⟩ := List.mem_filterMap.1 h
    cases hs : findSuburb st row.suburb_id with
    | none => rw [hs] at hF; cases hF
    | some srow =>
      rw [hs] at hF
      simp only [Option.some_bind] at hF
      cases hdq : findDistrict st srow.district_id with
      | none => rw [hdq] at hF; cases hF
      | some drow =>
        rw [hdq] at hF
        simp only [Option.some_bind] at hF
        cases hr : findRegion st srow.region_id with
        | none => rw [hr] at hF; cases hF
        | some rrow =>
          rw [hr] at hF
          simp only [Option.map_some'] at hF
          cases hF
          exact List.mem_of_find?_eq_some hr

theorem district_sum_over_regions {st : Store} (hinv : StoreInv st) (code : String) :
    (st.regions.map fun r =>
      (((districtJoin st code).filter fun t => t.2.2.2.id == r.id).map
        fun t => t.1.listing_count).sum).sum
      = ((districtJoin st code).map fun t => t.1.listing_count).sum := by
  have h1 : (st.regions.map fun r =>
      (((districtJoin st code).filter fun t => t.2.2.2.id == r.id).map
        fun t => t.1.listing_count).sum)
      = ((st.regions.map RegionRow.id).map fun k =>
        (((districtJoin st code).filter fun t => t.2.2.2.id == k).map
          fun t => t.1.listing_count).sum) := by
    rw [List.map_map]
    exact List.map_congr_left fun r _ => rfl
  rw [h1]
  refine grouped_sum_eq _ _ _ _ hinv.regionIds ?_
  intro t ht
  exact List.mem_map_of_mem RegionRow.id (districtJoin_region_mem ht)

/-! ## Shape of the historical series -/

theorem regionalRows_not_national (st : Store) (code : String) :
    (regionalRows st code).filter isNationalRow = [] := by
  rw [List.filter_eq_nil_iff]
  intro r hr
  obtain ⟨s, _, hr2⟩ := List.mem_flatMap.1 hr
  obtain ⟨rid, _, hmk⟩ := List.mem_map.1 hr2
  rw [← hmk]
  simp [isNationalRow]

theorem districtHistRows_not_national (st : Store) (code : String) :
    (districtHistRows st code).filter isNationalRow = [] := by
  rw [List.filter_eq_nil_iff]
  intro r hr
  obtain ⟨s, _, hr2⟩ := List.mem_flatMap.1 hr
  obtain ⟨key, _, hmk⟩ := List.mem_map.1 hr2
  rw [← hmk]
  simp [isNationalRow]

theorem suburbHistRows_not_national (st : Store) (code : String) :
    (suburbHistRows st code).filter isNationalRow = [] := by
  rw [List.filter_eq_nil_iff]
  intro r hr
  obtain ⟨s, _, hr2⟩ := List.mem_flatMap.1 hr
  obtain ⟨t, _, hmk⟩ := List.mem_map.1 hr2
  rw [← hmk]
  simp [isNationalRow]

theorem nationalRows_all_national (st : Store) (code : String) :
    (nationalRows st code).filter isNationalRow = nationalRows st code := by
  rw [List.filter_eq_self]
  intro r hr
  obtain ⟨s, _, hmk⟩ := List.mem_map.1 hr
  rw [← hmk]
  simp [isNationalRow]

/-- The all-null rows of the (unlimited) historical result are a permutation
of the national branch. -/
theorem historical_national_perm (st : Store) (code : String) :
    ((getHistoricalSnapshots st code none).filter isNationalRow).Perm
      (nationalRows st code) := by
  simp only [getHistoricalSnapshots]
  have hperm := List.perm_insertionSort
    (fun a b : HistRow => a.snapshot_date ≤ b.snapshot_date)
    (nationalRows st code ++ regionalRows st code ++ districtHistRows st code
      ++ suburbHistRows st code)
  refine (hperm.filter isNationalRow).trans ?_
  rw [List.filter_append, List.filter_append, List.filter_append,
    nationalRows_all_national, regionalRows_not_national,
    districtHistRows_not_national, suburbHistRows_not_national,
    List.append_nil, List.append_nil, List.append_nil]

/-! ## Claim theorems -/

/-- C1: fact rows and the returned totalNzListings are computed solely from
suburb-level counts: replacing every region-level and district-level count
field by arbitrary values changes neither the final store nor the result,
and on success totalNzListings equals the sum of the positive suburb counts
of the sentinel-filtered payload (e.g. 400 even when the district itself
reports 999). -/
theorem suburb_counts_sole_source (st : Store) (lt : String) (d t dur : Nat)
    (p : List Region) (f g : Nat → Option Nat) :
    collectPropertyData st lt d t dur (.ok (setLevelCounts f g p))
      = collectPropertyData st lt d t dur (.ok p)
    ∧ ((collectPropertyData st lt d t dur (.ok p)).2.success = true →
        (collectPropertyData st lt d t dur (.ok p)).2.totalNzListings
          = sumPositiveSuburbs (p.filter fun r => !(r.LocalityId == 100))) := by
  constructor
  · simp only [collectPropertyData, filter_setLevelCounts,
      sumPositiveSuburbs_setLevelCounts, processRegions_setCounts]
  · intro hs
    simp only [collectPropertyData] at hs ⊢
    cases hfind : List.find? (fun x => x.code == lt)
        (upsertSnapshot st d t).1.listing_types with
    | none => rw [hfind] at hs; simp at hs
    | some ltRow => rfl

/-- C1 witness: on the mismatched-upstream scenario the run succeeds and
returns 400, the suburb sum, ignoring the district's reported 999. -/
theorem suburb_counts_sole_source_witness :
    (collectPropertyData (initStore demoSeed) "B" 1 10 5 (.ok demoPayload)).2.success = true
    ∧ (collectPropertyData (initStore demoSeed) "B" 1 10 5
        (.ok demoPayload)).2.totalNzListings = 400 := by
  refine ⟨by decide, ?_⟩
  have h := (suburb_counts_sole_source (initStore demoSeed) "B" 1 10 5 demoPayload
    (fun _ => none) (fun _ => none)).2 (by decide)
  rw [h]
  decide

/-- C2: in every store reachable by ingestion runs every fact row has a
strictly positive count, and the fact rows emitted by a run are exactly the
rows of the positive-count suburb nodes — a suburb node with a zero or
absent count produces no fact row (absence encodes zero). -/
theorem fact_rows_sparse_positive (seed : List ListingTypeRow) (runs : List RunInput)
    (sid ltId : Nat) (st : Store) (rs : List Region) :
    (∀ row ∈ (runsFrom (initStore seed) runs).suburb_listings, 0 < row.listing_count)
    ∧ (processRegions sid ltId st rs).2
        = (allPosSuburbs rs).map (mkFactRow sid ltId) :=
  ⟨runsFrom_factsPos (by intro row hr; cases hr) runs,
    processRegions_snd sid ltId rs st⟩

/-- C2 witness: a concrete reachable fact row with its positive count. -/
theorem fact_rows_sparse_positive_witness :
    ((⟨1, 1, 1736, 354⟩ : SuburbListingRow)
        ∈ (runsFrom (initStore demoSeed) [demoRun]).suburb_listings)
    ∧ 0 < (⟨1, 1, 1736, 354⟩ : SuburbListingRow).listing_count :=
  ⟨by decide,
    (fact_rows_sparse_positive demoSeed [demoRun] 1 1 (initStore demoSeed) []).1 _
      (by decide)⟩

/-- C5: the sentinel "all locations" id 100 never appears as a region row in
any reachable store, and running collection on a payload from which the
sentinel subtree has been removed is indistinguishable (same store, same
result) from running it on the raw payload — the sentinel subtree
contributes to no fact row and no derived total. -/
theorem sentinel_region_excluded (seed : List ListingTypeRow) (runs : List RunInput)
    (st : Store) (lt : String) (d t dur : Nat) (p : List Region) :
    (∀ row ∈ (runsFrom (initStore seed) runs).regions, row.id ≠ 100)
    ∧ collectPropertyData st lt d t dur
        (.ok (p.filter fun r => !(r.LocalityId == 100)))
      = collectPropertyData st lt d t dur (.ok p) := by
  constructor
  · exact runsFrom_no100 (by intro row hr; cases hr) runs
  · simp only [collectPropertyData, List.filter_filter]
    have hp : (fun (r : Region) => !(r.LocalityId == 100) && !(r.LocalityId == 100))
        = fun (r : Region) => !(r.LocalityId == 100) := by
      funext r
      exact Bool.and_self _
    rw [hp]

/-- C5 witness: a concrete reachable region row, with id 9 ≠ 100. -/
theorem sentinel_region_excluded_witness :
    ((⟨9, "Northland"⟩ : RegionRow) ∈ (runsFrom (initStore demoSeed) [demoRun]).regions)
    ∧ (⟨9, "Northland"⟩ : RegionRow).id ≠ 100 :=
  ⟨by decide,
    (sentinel_region_excluded demoSeed [demoRun] (initStore demoSeed) "B" 1 10 5 []).1
      ⟨9, "Northland"⟩ (by decide)⟩

/-- C6: across any sequence of runs the region, district and suburb tables
only grow by appending (a location once inserted is never removed), and
after a successful run every region, district and suburb node of the
sentinel-filtered payload has a reference row keyed by its upstream id,
regardless of its count. -/
theorem hierarchy_covering_and_monotone (st : Store) (runs : List RunInput)
    (run : RunInput) :
    ((∃ l, (runsFrom st runs).regions = st.regions ++ l)
      ∧ (∃ l, (runsFrom st runs).districts = st.districts ++ l)
      ∧ (∃ l, (runsFrom st runs).suburbs = st.suburbs ++ l))
    ∧ ((collectPropertyData st run.listingType run.snapshotDate run.collectedAt
          run.duration run.fetch).2.success = true →
        ∀ r ∈ (payloadOf run.fetch).filter (fun x => !(x.LocalityId == 100)),
          hasRegionId (runOnce st run) r.LocalityId
          ∧ ∀ dn ∈ r.Districts,
              hasDistrictId (runOnce st run) dn.DistrictId
              ∧ ∀ sub ∈ dn.Suburbs, hasSuburbId (runOnce st run) sub.SuburbId) := by
  refine ⟨runsFrom_hier_grows st runs, ?_⟩
  intro hsucc r hr
  rcases hfetch : run.fetch with p | msg
  · rw [hfetch] at hsucc hr
    simp only [payloadOf] at hr
    simp only [runOnce, hfetch]
    simp only [collectPropertyData] at hsucc ⊢
    cases hfind : List.find? (fun x => x.code == run.listingType)
        (upsertSnapshot st run.snapshotDate run.collectedAt).1.listing_types with
    | none => rw [hfind] at hsucc; simp at hsucc
    | some ltRow =>
      have hcov := processRegions_covers
        (upsertSnapshot st run.snapshotDate run.collectedAt).2 ltRow.id
        (p.filter fun x => !(x.LocalityId == 100))
        (upsertSnapshot st run.snapshotDate run.collectedAt).1 r hr
      refine ⟨hasRegionId_of_field_eq (finalize_regions _ _ _ _ _ _) hcov.1, ?_⟩
      intro dn hdn
      refine ⟨hasDistrictId_of_field_eq (finalize_districts _ _ _ _ _ _)
        ((hcov.2 dn hdn).1), ?_⟩
      intro sub hsub
      exact hasSuburbId_of_field_eq (finalize_suburbs _ _ _ _ _ _)
        ((hcov.2 dn hdn).2 sub hsub)
  · rw [hfetch] at hsucc
    simp [collectPropertyData] at hsucc

/-- C6 witness: after the successful demonstration run, the zero-independent
coverage holds for the concrete payload nodes. -/
theorem hierarchy_covering_witness :
    (collectPropertyData (initStore demoSeed) demoRun.listingType demoRun.snapshotDate
      demoRun.collectedAt demoRun.duration demoRun.fetch).2.success = true
    ∧ hasSuburbId (runOnce (initStore demoSeed) demoRun) 1737 := by
  refine ⟨by decide, ?_⟩
  have h := (hierarchy_covering_and_monotone (initStore demoSeed) [] demoRun).2
    (by decide)
  have hr := h demoRegion (by decide)
  exact (hr.2 demoDistrict (by decide)).2 demoSuburb2 (by decide)

/-- C9: a fetch failure aborts the cycle with no writes at all and the
structured failure result, and every run (any fetch outcome) returns either
a success result with no error or a failure result carrying an error
message — the engine never throws past its boundary. -/
theorem fetch_failure_aborts_cleanly (st : Store) (lt : String) (d t dur : Nat)
    (msg : String) :
    collectPropertyData st lt d t dur (.fail msg)
      = (st, { success := false, totalRecords := 0, totalNzListings := 0,
               error := some msg })
    ∧ ∀ fetch : FetchOutcome,
        ((collectPropertyData st lt d t dur fetch).2.success = true
          ∧ (collectPropertyData st lt d t dur fetch).2.error = none)
        ∨ ((collectPropertyData st lt d t dur fetch).2.success = false
          ∧ ((collectPropertyData st lt d t dur fetch).2.error).isSome = true) := by
  refine ⟨rfl, ?_⟩
  intro fetch
  cases fetch with
  | ok p =>
    simp only [collectPropertyData]
    cases hfind : List.find? (fun x => x.code == lt)
        (upsertSnapshot st d t).1.listing_types with
    | none => exact Or.inr ⟨rfl, rfl⟩
    | some ltRow => exact Or.inl ⟨rfl, rfl⟩
  | fail m => exact Or.inr ⟨rfl, rfl⟩

/-- C10: when the listing category code is not seeded, the run fails and
writes no hierarchy rows and no fact rows, but the snapshot row for the date
has already been upserted: it exists with status in_progress and its
collected_at overwritten with the failed run's timestamp. -/
theorem missing_listing_type_mutates_snapshot (st : Store) (lt : String)
    (d t dur : Nat) (p : List Region)
    (h : ∀ row ∈ st.listing_types, row.code ≠ lt) :
    collectPropertyData st lt d t dur (.ok p)
      = ((upsertSnapshot st d t).1,
         { success := false, totalRecords := 0, totalNzListings := 0,
           error := some ("Listing type " ++ lt ++ " not found in database") })
    ∧ (upsertSnapshot st d t).1.regions = st.regions
    ∧ (upsertSnapshot st d t).1.districts = st.districts
    ∧ (upsertSnapshot st d t).1.suburbs = st.suburbs
    ∧ (upsertSnapshot st d t).1.suburb_listings = st.suburb_listings
    ∧ ∃ row ∈ (upsertSnapshot st d t).1.snapshots,
        row.snapshot_date = d ∧ row.status = "in_progress" ∧ row.collected_at = t := by
  have hfind : List.find? (fun x => x.code == lt)
      (upsertSnapshot st d t).1.listing_types = none := by
    rw [List.find?_eq_none]
    intro x hx
    rw [upsertSnapshot_types] at hx
    simpa [beq_iff_eq] using h x hx
  refine ⟨?_, upsertSnapshot_regions st d t, upsertSnapshot_districts st d t,
    upsertSnapshot_suburbs st d t, upsertSnapshot_facts st d t,
    upsertSnapshot_row_exists st d t⟩
  simp only [collectPropertyData]
  rw [hfind]

/-- C10 witness: with an unseeded store the run fails yet the snapshot row
for the date exists, in progress, stamped with the failed run's time. -/
theorem missing_listing_type_witness :
    (∀ row ∈ (initStore []).listing_types, row.code ≠ "B")
    ∧ (collectPropertyData (initStore []) "B" 1 10 5 (.ok demoPayload)).2.success = false
    ∧ ∃ row ∈ (collectPropertyData (initStore []) "B" 1 10 5
        (.ok demoPayload)).1.snapshots,
        row.snapshot_date = 1 ∧ row.status = "in_progress" ∧ row.collected_at = 10 := by
  have h := missing_listing_type_mutates_snapshot (initStore []) "B" 1 10 5 demoPayload
    (by decide)
  refine ⟨by decide, ?_, ?_⟩
  · rw [h.1]
  · rw [h.1]
    exact h.2.2.2.2.2

/-- C3 counterexample: two runs for the same category and date, where the
second run's payload has no positive suburb count.  The delete step is
guarded by `if (suburbListings.length > 0)` in the source, so the first
run's fact row survives, while running only the second cycle once stores
nothing — the final fact-row sets differ. -/
theorem rerun_leaves_stale_rows :
    ¬ (factRowsForDate (runsFrom (initStore demoSeed) [staleRun1, staleRun2]) 1 "B"
        = factRowsForDate (runsFrom (initStore demoSeed) [staleRun2]) 1 "B") := by
  decide

/-- C3 amended: re-running collection for the same category on the same
calendar date (with a possibly changed payload) yields the same fact-row
set for that date and category as running only the final cycle once,
provided the final cycle's sentinel-filtered payload contains at least one
suburb with a positive count — when it contains none, the source skips the
delete-then-insert step and the earlier run's rows remain (see the
counterexample). -/
theorem rerun_idempotent_when_nonempty (st0 : Store) (r1 r2 : RunInput)
    (hlt : r1.listingType = r2.listingType)
    (hd : r1.snapshotDate = r2.snapshotDate)
    (hne : allPosSuburbs ((payloadOf r2.fetch).filter fun x => !(x.LocalityId == 100)) ≠ [])
    (hseed : ∃ row ∈ st0.listing_types, row.code = r2.listingType) :
    factRowsForDate (runsFrom st0 [r1, r2]) r2.snapshotDate r2.listingType
      = factRowsForDate (runsFrom st0 [r2]) r2.snapshotDate r2.listingType := by
  cases hf2 : r2.fetch with
  | fail msg =>
    rw [hf2] at hne
    simp [payloadOf, allPosSuburbs] at hne
  | ok p2 =>
  rw [hf2] at hne
  simp only [payloadOf] at hne
  obtain ⟨ltRow, hltfind⟩ : ∃ ltRow, List.find? (fun x => x.code == r2.listingType)
      st0.listing_types = some ltRow := by
    have hsome : (List.find? (fun x => x.code == r2.listingType)
        st0.listing_types).isSome = true := by
      rw [List.find?_isSome]
      obtain ⟨row, hm, hc⟩ := hseed
      exact ⟨row, hm, by simp [hc]⟩
    exact Option.isSome_iff_exists.1 hsome
  show factRowsForDate (runOnce (runOnce st0 r1) r2) r2.snapshotDate r2.listingType
      = factRowsForDate (runOnce st0 r2) r2.snapshotDate r2.listingType
  cases hf1 : r1.fetch with
  | fail msg =>
    have h1 : runOnce st0 r1 = st0 := by
      unfold runOnce
      rw [hf1]
      rfl
    rw [h1]
  | ok p1 =>
    have hA1 : (runOnce st0 r1).listing_types = st0.listing_types := runOnce_types st0 r1
    have hA3 : sidByDate (runOnce st0 r1) r2.snapshotDate
        = some (upsertSid st0 r2.snapshotDate) := by
      have h := @runOnce_sidByDate st0 r1 p1 hf1
      rw [hd] at h
      exact h
    have hsid1 : upsertSid (runOnce st0 r1) r2.snapshotDate
        = upsertSid st0 r2.snapshotDate := upsertSid_of_sidByDate hA3
    have hltfind1 : List.find? (fun x => x.code == r2.listingType)
        (runOnce st0 r1).listing_types = some ltRow := by
      rw [hA1]
      exact hltfind
    have hslL := @runOnce_sl_success (runOnce st0 r1) r2 p2 hf2 ltRow hltfind1 hne
    have hslR := @runOnce_sl_success st0 r2 p2 hf2 ltRow hltfind hne
    have habs := runOnce_facts_filter st0 r1 ltRow (by rw [hlt]; exact hltfind)
    rw [hd] at habs
    have htypes : (runOnce (runOnce st0 r1) r2).listing_types
        = (runOnce st0 r2).listing_types := by
      simp only [runOnce_types]
    have hpL : snapProj (runOnce (runOnce st0 r1) r2) = snapProj (runOnce st0 r2) := by
      rw [@runOnce_snapProj (runOnce st0 r1) r2 p2 hf2,
        @runOnce_snapProj st0 r2 p2 hf2,
        upsertSnapshot_snapProj, upsertSnapshot_snapProj]
      obtain ⟨rowd, hrowd⟩ : ∃ rowd, (runOnce st0 r1).snapshots.find?
          (fun s => s.snapshot_date == r2.snapshotDate) = some rowd := by
        unfold sidByDate at hA3
        cases hf : (runOnce st0 r1).snapshots.find?
            (fun s => s.snapshot_date == r2.snapshotDate) with
        | some rowd => exact ⟨rowd, rfl⟩
        | none => rw [hf] at hA3; cases hA3
      rw [hrowd]
      rw [List.append_nil, @runOnce_snapProj st0 r1 p1 hf1,
        upsertSnapshot_snapProj, hd]
    have hsl : (runOnce (runOnce st0 r1) r2).suburb_listings
        = (runOnce st0 r2).suburb_listings := by
      rw [hslL, hslR, hsid1, habs]
    exact factRowsForDate_congr htypes hpL hsl r2.snapshotDate r2.listingType

/-- C3 witness: the amended theorem applied to a concrete re-run whose
second payload yields positive suburb counts. -/
theorem rerun_idempotent_witness :
    factRowsForDate (runsFrom (initStore demoSeed) [staleRun1, demoRun])
        demoRun.snapshotDate demoRun.listingType
      = factRowsForDate (runsFrom (initStore demoSeed) [demoRun])
        demoRun.snapshotDate demoRun.listingType :=
  rerun_idempotent_when_nonempty (initStore demoSeed) staleRun1 demoRun
    (by decide) (by decide) (by decide) (by decide)


/-- C4: in every reachable store, for every category: the sum of all region
totals, and the sum over all regions of that region's district totals, both
equal the national total of `getTotalsByLocationType` — all three are sums
of the same suburb_listings rows of the latest snapshot, joined through the
hierarchy. -/
theorem totals_consistent_by_construction (seed : List ListingTypeRow)
    (runs : List RunInput) (code : String) (now : Nat) :
    ((getRegionTotalsAll (runsFrom (initStore seed) runs) code).map
        RegionTotalRow.total_listings).sum
      = (getTotalsByLocationType (runsFrom (initStore seed) runs) code now).total
    ∧ (((runsFrom (initStore seed) runs).regions).map fun r =>
        ((getDistrictTotalsAll (runsFrom (initStore seed) runs) code r.id).map
          DistrictTotalRow.total_listings).sum).sum
      = (getTotalsByLocationType (runsFrom (initStore seed) runs) code now).total := by
  have hinv := runsFrom_inv (storeInv_init seed) runs
  constructor
  · rw [getRegionTotalsAll_sum, regionJoin_sum hinv]
    rfl
  · have h1 : ((runsFrom (initStore seed) runs).regions.map fun r =>
        ((getDistrictTotalsAll (runsFrom (initStore seed) runs) code r.id).map
          DistrictTotalRow.total_listings).sum)
        = ((runsFrom (initStore seed) runs).regions.map fun r =>
          (((districtJoin (runsFrom (initStore seed) runs) code).filter
            fun t => t.2.2.2.id == r.id).map fun t => t.1.listing_count).sum) :=
      List.map_congr_left fun r _ => getDistrictTotalsAll_sum _ code r.id
    rw [h1, district_sum_over_regions hinv code, districtJoin_sum hinv]
    rfl

/-- C8: the unlimited historical series is ordered by snapshot date
ascending; its rows with all three location ids NULL comprise exactly one
row per snapshot that has fact rows of the category; each such row's total
is the sum of that snapshot's fact rows for the category; and the row of
the latest snapshot carries the same national total that
getTotalsByLocationType computes. -/
theorem historical_series_national_shape (seed : List ListingTypeRow)
    (runs : List RunInput) (code : String) (now : Nat) :
    List.Sorted (fun a b : HistRow => a.snapshot_date ≤ b.snapshot_date)
        (getHistoricalSnapshots (runsFrom (initStore seed) runs) code none)
    ∧ (∀ s ∈ (runsFrom (initStore seed) runs).snapshots,
        ((getHistoricalSnapshots (runsFrom (initStore seed) runs) code none).filter
            isNationalRow).countP (fun r => r.id == s.id)
          = if snapshotHasFacts (runsFrom (initStore seed) runs) code s.id = true
            then 1 else 0)
    ∧ ∀ r ∈ (getHistoricalSnapshots (runsFrom (initStore seed) runs) code none).filter
          isNationalRow,
        r.total_listings
          = ((factsOfCodeFor (runsFrom (initStore seed) runs) code r.id).map
              fun row => row.listing_count).sum
        ∧ (∃ s ∈ (runsFrom (initStore seed) runs).snapshots, s.id = r.id)
        ∧ (latestSnapshotId (runsFrom (initStore seed) runs) code = some r.id →
            r.total_listings
              = (getTotalsByLocationType (runsFrom (initStore seed) runs) code now).total) := by
  have hinv := runsFrom_inv (storeInv_init seed) runs
  obtain ⟨st, hst⟩ : ∃ st, runsFrom (initStore seed) runs = st := ⟨_, rfl⟩
  rw [hst] at hinv ⊢
  refine ⟨?_, ?_, ?_⟩
  · simp only [getHistoricalSnapshots]
    haveI ht : IsTotal HistRow (fun a b => a.snapshot_date ≤ b.snapshot_date) :=
      ⟨fun a b => Nat.le_total _ _⟩
    haveI htr : IsTrans HistRow (fun a b => a.snapshot_date ≤ b.snapshot_date) :=
      ⟨fun a b c hab hbc => Nat.le_trans hab hbc⟩
    exact List.sorted_insertionSort _ _
  · intro s hs
    rw [List.Perm.countP_eq _ (historical_national_perm st code)]
    unfold nationalRows
    rw [List.countP_map]
    cases hq : snapshotHasFacts st code s.id with
    | true =>
      rw [if_pos rfl]
      have hnd : ((st.snapshots.filter fun s2 =>
          snapshotHasFacts st code s2.id).map SnapshotRow.id).Nodup :=
        List.Nodup.sublist ((List.filter_sublist st.snapshots).map SnapshotRow.id)
          hinv.snapIds
      have hmem : s ∈ st.snapshots.filter fun s2 => snapshotHasFacts st code s2.id :=
        List.mem_filter.2 ⟨hs, hq⟩
      exact countP_key_eq_one SnapshotRow.id _ hnd s hmem
    | false =>
      rw [if_neg (by simp)]
      refine countP_key_eq_zero SnapshotRow.id _ s.id ?_
      intro a ha heq
      have ha2 := List.mem_filter.1 ha
      have haeq : a = s := List.inj_on_of_nodup_map hinv.snapIds ha2.1 hs heq
      rw [haeq] at ha2
      rw [ha2.2] at hq
      cases hq
  · intro r hr
    have hmem : r ∈ nationalRows st code :=
      ((historical_national_perm st code).mem_iff).1 hr
    unfold nationalRows at hmem
    obtain ⟨s, hsmem, hmk⟩ := List.mem_map.1 hmem
    have hsmem2 : s ∈ st.snapshots := List.mem_of_mem_filter hsmem
    have h1 : r.total_listings
        = ((factsOfCodeFor st code r.id).map fun row => row.listing_count).sum := by
      rw [← hmk]
    refine ⟨h1, ⟨s, hsmem2, by rw [← hmk]⟩, ?_⟩
    intro hlatest
    rw [h1]
    show ((factsOfCodeFor st code r.id).map fun row => row.listing_count).sum
        = ((latestFacts st code).map fun row => row.listing_count).sum
    unfold latestFacts
    rw [hlatest]

/-- C8 witness: after the demonstration run, the snapshot with facts has
exactly one all-null historical row. -/
theorem historical_series_national_witness :
    ((⟨1, 1, 10, "completed", some 5⟩ : SnapshotRow)
        ∈ (runsFrom (initStore demoSeed) [demoRun]).snapshots)
    ∧ ((getHistoricalSnapshots (runsFrom (initStore demoSeed) [demoRun]) "B"
          none).filter isNationalRow).countP
        (fun r => r.id == (⟨1, 1, 10, "completed", some 5⟩ : SnapshotRow).id) = 1 := by
  have h := (historical_series_national_shape demoSeed [demoRun] "B" 0).2.1
    ⟨1, 1, 10, "completed", some 5⟩ (by decide)
  refine ⟨by decide, ?_⟩
  rw [h]
  decide

/-- C7 counterexample: district 10 first appears under region 1 (run 1);
in run 2 the upstream moves it under region 2 and attaches a new suburb.
INSERT OR IGNORE keeps the district row's region 1, while the suburb row is
inserted with region 2 — the denormalized region_id disagrees with the
parent district's region. -/
theorem suburb_region_mismatch_cex :
    ¬ (∀ s ∈ (runsFrom (initStore demoSeed) [reparentRun1, reparentRun2]).suburbs,
        ∀ dRow ∈ (runsFrom (initStore demoSeed) [reparentRun1, reparentRun2]).districts,
          dRow.id = s.district_id → dRow.region_id = s.region_id) := by
  decide

/-- C7 amended: the denormalized suburb region always agrees with the parent
district's region provided the upstream payloads assign each district id to
a fixed region across all runs (a stable district-to-region map).  When a
payload reparents a district, the invariant can break (see the
counterexample). -/
theorem suburb_region_consistent_when_stable (seed : List ListingTypeRow)
    (runs : List RunInput) (rho : Nat → Nat)
    (hstable : ∀ run ∈ runs, ∀ r ∈ payloadOf run.fetch, r.LocalityId ≠ 100 →
      ∀ dn ∈ r.Districts, rho dn.DistrictId = r.LocalityId) :
    ∀ s ∈ (runsFrom (initStore seed) runs).suburbs,
      ∀ dRow ∈ (runsFrom (initStore seed) runs).districts,
        dRow.id = s.district_id → dRow.region_id = s.region_id := by
  have h := @rho_runsFrom rho (initStore seed)
    ⟨(by intro d hd; cases hd), (by intro s hs; cases hs)⟩ runs hstable
  intro s hs dRow hd hid
  rw [h.1 dRow hd, hid, h.2 s hs]

/-- C7 witness: the amended theorem at a concrete stable run. -/
theorem suburb_region_consistent_witness :
    ((⟨1736, "Kerikeri", 1, 9⟩ : SuburbRow)
        ∈ (runsFrom (initStore demoSeed) [demoRun]).suburbs)
    ∧ ((⟨1, "Far North", 9⟩ : DistrictRow)
        ∈ (runsFrom (initStore demoSeed) [demoRun]).districts)
    ∧ (⟨1, "Far North", 9⟩ : DistrictRow).region_id
        = (⟨1736, "Kerikeri", 1, 9⟩ : SuburbRow).region_id :=
  ⟨by decide, by decide,
    suburb_region_consistent_when_stable demoSeed [demoRun] (fun _ => 9) (by decide)
      ⟨1736, "Kerikeri", 1, 9⟩ (by decide) ⟨1, "Far North", 9⟩ (by decide) (by decide)⟩

end NZS
